import Mathlib

/-!
# Stm0_Scheduler: a tick-driven table of software timers

Shallow embedding of `Stm0_Scheduler.c`.

* The global array `g_Stm0SoftTimer[STM0_MAX_TIMERS]` is a function from
  `Fin STM0_MAX_TIMERS` to slots. An index outside the array is undefined
  behaviour in C (the code has no bounds check); the index type leaves it out.
* `uint32_t` fields are natural numbers; the one place where the code can
  overflow, `tickCount++`, is reduced modulo `2 ^ 32`.
* A function pointer is a number, `NULL` is `0`. What a call through a pointer
  does to the table is given by an environment `Env`; callbacks are assumed to
  return.
* Every lifecycle function is the sequence of its field writes, in source order.
* The tick handler returns the new machine state together with the ordered list
  of its effects (comparator re-arm, counter writes, callback calls).
-/

namespace Stm0

/-! ## Data model -/

/-- Number of slots of the timer table (`#define STM0_MAX_TIMERS 15`). -/
abbrev STM0_MAX_TIMERS : Nat := 15

/-- Modulus of `uint32_t` arithmetic. -/
abbrev UINT32_MOD : Nat := 2 ^ 32

/-- A function pointer `void (*)(void)`, as an address. -/
abbrev Callback := Nat

/-- The null function pointer. -/
abbrev NULL : Callback := 0

/-- One entry of the table (`struct Stm0SoftTimer`). -/
structure Stm0SoftTimer where
  tickCount : Nat
  tickDuration : Nat
  callback : Callback
  running : Bool
  active : Bool
  deriving DecidableEq

/-- The array `g_Stm0SoftTimer`. -/
abbrev Table := Fin STM0_MAX_TIMERS → Stm0SoftTimer

/-- A zero-initialised slot (static storage in C starts as all zero). -/
def zeroTimer : Stm0SoftTimer :=
  { tickCount := 0, tickDuration := 0, callback := NULL, running := false, active := false }

/-- The table at program start: every slot zero-initialised. -/
def zeroTable : Table := fun _ => zeroTimer

/-- Effect on the table of calling through each function pointer. -/
abbrev Env := Callback → Table → Table

/-! ## Field writes -/

/-- The write `g_Stm0SoftTimer[i].tickCount = v`. -/
def setTickCount (i : Fin STM0_MAX_TIMERS) (v : Nat) (g : Table) : Table :=
  Function.update g i { g i with tickCount := v }

/-- The write `g_Stm0SoftTimer[i].tickDuration = v`. -/
def setTickDuration (i : Fin STM0_MAX_TIMERS) (v : Nat) (g : Table) : Table :=
  Function.update g i { g i with tickDuration := v }

/-- The write `g_Stm0SoftTimer[i].callback = c`. -/
def setCallback (i : Fin STM0_MAX_TIMERS) (c : Callback) (g : Table) : Table :=
  Function.update g i { g i with callback := c }

/-- The write `g_Stm0SoftTimer[i].active = b`. -/
def setActive (i : Fin STM0_MAX_TIMERS) (b : Bool) (g : Table) : Table :=
  Function.update g i { g i with active := b }

/-- The write `g_Stm0SoftTimer[i].running = b`. -/
def setRunning (i : Fin STM0_MAX_TIMERS) (b : Bool) (g : Table) : Table :=
  Function.update g i { g i with running := b }

/-! ## Lifecycle functions -/

/-- Registers a timer in a free slot (`Stm0_NewTimer`, lines 120-131). -/
def Stm0_NewTimer (callback : Callback) (timerId : Fin STM0_MAX_TIMERS) (tickDuration : Nat)
    (g : Table) : Table :=
  if !(g timerId).active then
    setRunning timerId false
      (setActive timerId true
        (setCallback timerId callback
          (setTickDuration timerId tickDuration
            (setTickCount timerId 0 g))))
  else g

/-- Frees a slot (`Stm0_DeleteTimer`, lines 137-148). -/
def Stm0_DeleteTimer (timerId : Fin STM0_MAX_TIMERS) (g : Table) : Table :=
  if (g timerId).active then
    setRunning timerId false
      (setActive timerId false
        (setCallback timerId NULL
          (setTickDuration timerId 0
            (setTickCount timerId 0 g))))
  else g

/-- Starts a registered timer (`Stm0_StartTimer`, lines 154-163). -/
def Stm0_StartTimer (timerId : Fin STM0_MAX_TIMERS) (g : Table) : Table :=
  if (g timerId).active && decide ((g timerId).tickDuration > 0) then
    setRunning timerId true (setTickCount timerId 0 g)
  else g

/-- Stops a registered timer (`Stm0_StopTimer`, lines 170-179). -/
def Stm0_StopTimer (timerId : Fin STM0_MAX_TIMERS) (g : Table) : Table :=
  if (g timerId).active && decide ((g timerId).tickDuration > 0) then
    setRunning timerId false (setTickCount timerId 0 g)
  else g

/-! ## Tick handler -/

/-- One observable effect of the tick handler. -/
inductive Event where
  /-- the comparator was programmed with this value -/
  | rearm (cmp : Nat)
  /-- the write `tickCount++` of a slot -/
  | count (i : Fin STM0_MAX_TIMERS)
  /-- the call `callback()` of a slot, with the pointer called -/
  | call (i : Fin STM0_MAX_TIMERS) (cb : Callback)
  /-- the write `tickCount = 0` of a slot after its callback returned -/
  | reset (i : Fin STM0_MAX_TIMERS)
  deriving DecidableEq

/-- The machine: compare register, `g_Stm0TickTime`, and the timer table. -/
structure Machine where
  comparator : Nat
  tickTime : Nat
  timers : Table

/-- Modelled from the spec: `IfxStm_increaseCompare` belongs to the vendor driver,
which is not part of the sources; the spec describes it as `deadline += period`,
the stored tick count added to the current compare value. -/
def IfxStm_increaseCompare (comparator ticks : Nat) : Nat :=
  comparator + ticks

/-- Body of the `for` loop of `isrStm0_TickHandler` for one index (lines 68-79). -/
def tickSlot (env : Env) (i : Fin STM0_MAX_TIMERS) (g : Table) : Table × List Event :=
  if !(g i).active then (g, [])
  else if !(g i).running then (g, [])
  else
    let g1 := setTickCount i (((g i).tickCount + 1) % UINT32_MOD) g
    if (g1 i).tickCount ≥ (g1 i).tickDuration then
      let g2 := env (g1 i).callback g1
      (setTickCount i 0 g2, [Event.count i, Event.call i (g1 i).callback, Event.reset i])
    else (g1, [Event.count i])

/-- The `for` loop of `isrStm0_TickHandler` over the indices still to visit. -/
def tickLoop (env : Env) : List (Fin STM0_MAX_TIMERS) → Table → Table × List Event
  | [], g => (g, [])
  | i :: rest, g =>
    let r := tickSlot env i g
    let r2 := tickLoop env rest r.1
    (r2.1, r.2 ++ r2.2)

/-- The interrupt handler `isrStm0_TickHandler` (lines 59-81): re-arm the
comparator, then visit the slots `0 .. STM0_MAX_TIMERS - 1` in order. -/
def isrStm0_TickHandler (env : Env) (s : Machine) : Machine × List Event :=
  let cmp := IfxStm_increaseCompare s.comparator s.tickTime
  let r := tickLoop env (List.finRange STM0_MAX_TIMERS) s.timers
  ({ s with comparator := cmp, timers := r.1 }, Event.rearm cmp :: r.2)

/-- Machine state after `n` invocations of the handler. -/
def run (env : Env) : Nat → Machine → Machine
  | 0, s => s
  | n + 1, s => (isrStm0_TickHandler env (run env n s)).1

/-- Effects of the invocation number `n + 1` of the handler. -/
def pass (env : Env) (n : Nat) (s : Machine) : List Event :=
  (isrStm0_TickHandler env (run env n s)).2

/-- Effects of the first `n` invocations of the handler, in order. -/
def history (env : Env) : Nat → Machine → List Event
  | 0, _ => []
  | n + 1, s => history env n s ++ pass env n s

/-- Callbacks called from slot `i` in a list of effects, in order. -/
def callsFrom (i : Fin STM0_MAX_TIMERS) : List Event → List Callback
  | [] => []
  | Event.call j cb :: rest => if j = i then cb :: callsFrom i rest else callsFrom i rest
  | _ :: rest => callsFrom i rest

/-- All callback calls in a list of effects, with the slot that made each. -/
def calls : List Event → List (Fin STM0_MAX_TIMERS × Callback)
  | [] => []
  | Event.call j cb :: rest => (j, cb) :: calls rest
  | _ :: rest => calls rest

/-! ## Assumptions on callbacks -/

/-- Callback `c` leaves slot `i` as it finds it, on every table. -/
def Keeps (env : Env) (i : Fin STM0_MAX_TIMERS) (c : Callback) : Prop :=
  ∀ g : Table, (env c g) i = g i

/-- In the effects `evs`, every callback called from a slot other than `i`
leaves slot `i` as it finds it. -/
def OthersKeep (env : Env) (i : Fin STM0_MAX_TIMERS) (evs : List Event) : Prop :=
  ∀ j c, Event.call j c ∈ evs → j ≠ i → Keeps env i c

/-- In the effects `evs`, every callback called leaves slot `i` as it finds it. -/
def AllKeep (env : Env) (i : Fin STM0_MAX_TIMERS) (evs : List Event) : Prop :=
  ∀ j c, Event.call j c ∈ evs → Keeps env i c

/-- No callback modifies the table. -/
def Inert (env : Env) : Prop :=
  ∀ (c : Callback) (g : Table), env c g = g

/-- A call of one of the four lifecycle functions. -/
inductive Op where
  | newTimer (callback : Callback) (timerId : Fin STM0_MAX_TIMERS) (tickDuration : Nat)
  | deleteTimer (timerId : Fin STM0_MAX_TIMERS)
  | startTimer (timerId : Fin STM0_MAX_TIMERS)
  | stopTimer (timerId : Fin STM0_MAX_TIMERS)
  deriving DecidableEq

/-- Effect of a lifecycle call on the table. -/
def Op.apply : Op → Table → Table
  | Op.newTimer cb i d, g => Stm0_NewTimer cb i d g
  | Op.deleteTimer i, g => Stm0_DeleteTimer i g
  | Op.startTimer i, g => Stm0_StartTimer i g
  | Op.stopTimer i, g => Stm0_StopTimer i g

/-- Effect of a sequence of lifecycle calls, first call first. -/
def runOps : List Op → Table → Table
  | [], g => g
  | o :: rest, g => runOps rest (o.apply g)

/-- Every callback acts on the table only through lifecycle calls. -/
def ApiOnly (env : Env) : Prop :=
  ∀ c : Callback, ∃ ops : List Op, ∀ g : Table, env c g = runOps ops g

/-! ## Predicates on tables -/

/-- The invariant of the data model: a running slot is active. -/
def RunningImpliesActive (g : Table) : Prop :=
  ∀ j : Fin STM0_MAX_TIMERS, (g j).running = true → (g j).active = true

/-- Tables reachable from the zero table by lifecycle calls and handler passes. -/
inductive Reachable (env : Env) : Table → Prop where
  | init : Reachable env zeroTable
  | op (o : Op) (g : Table) : Reachable env g → Reachable env (o.apply g)
  | tick (cmp t : Nat) (g : Table) :
      Reachable env g → Reachable env (isrStm0_TickHandler env ⟨cmp, t, g⟩).1.timers

/-- The test the handler makes on a slot it visits, as the code computes it:
active, running, and the incremented 32-bit counter has reached the period. -/
def due (g : Table) (i : Fin STM0_MAX_TIMERS) : Bool :=
  (g i).active && (g i).running &&
    decide (((g i).tickCount + 1) % UINT32_MOD ≥ (g i).tickDuration)

/-- The same test with the increment taken in the natural numbers. -/
def dueNat (g : Table) (i : Fin STM0_MAX_TIMERS) : Bool :=
  (g i).active && (g i).running && decide ((g i).tickCount + 1 ≥ (g i).tickDuration)

/-- A lifecycle call made between two handler invocations. -/
def Machine.call (s : Machine) (f : Table → Table) : Machine :=
  { s with timers := f s.timers }

/-! ## Example environments and tables -/

/-- No callback touches the table. -/
def inertEnv : Env := fun _ g => g

/-- Callback `1` calls `Stm0_StartTimer(1)`; the others do nothing. -/
def restartEnv : Env := fun c g => if c = 1 then Stm0_StartTimer 1 g else g

/-- Callback `1` calls `Stm0_StopTimer(1)`; the others do nothing. -/
def stopEnv : Env := fun c g => if c = 1 then Stm0_StopTimer 1 g else g

/-- Timers `0` (callback `1`) and `1` (callback `2`), both of period one tick,
both started. -/
def twoTimers : Table :=
  Stm0_StartTimer 1 (Stm0_NewTimer 2 1 1 (Stm0_StartTimer 0 (Stm0_NewTimer 1 0 1 zeroTable)))

/-- Slot `0` running with period `5` and its counter at the largest 32-bit value. -/
def wrapTable : Table :=
  Function.update zeroTable 0
    { tickCount := 4294967295, tickDuration := 5, callback := 7, running := true, active := true }

/-- Slot `0` (callback `1`, period one tick) running; slot `1` (callback `2`,
period `2`) running with its counter at `3`, past its period. -/
def overdueTable : Table :=
  Function.update
    (Function.update zeroTable 0
      { tickCount := 0, tickDuration := 1, callback := 1, running := true, active := true })
    1 { tickCount := 3, tickDuration := 2, callback := 2, running := true, active := true }

/-! ## Sequences of operations -/

/-- One step of the system between two observations: a lifecycle call from the
normal context, or one invocation of the tick handler. -/
inductive Step where
  | op (o : Op)
  | tick
  deriving DecidableEq

/-- Runs a sequence of steps; returns the final machine and the handler effects
of all its ticks, in order. -/
def exec (env : Env) : List Step → Machine → Machine × List Event
  | [], s => (s, [])
  | Step.op o :: rest, s => exec env rest (s.call o.apply)
  | Step.tick :: rest, s =>
    let r := isrStm0_TickHandler env s
    let r2 := exec env rest r.1
    (r2.1, r.2 ++ r2.2)

/-- The lifecycle calls of a sequence of steps. -/
def stepOps : List Step → List Op
  | [] => []
  | Step.op o :: rest => o :: stepOps rest
  | Step.tick :: rest => stepOps rest

/-- Every callback is a fixed sequence of lifecycle calls, each satisfying `P`. -/
def ApiOnlyWith (P : Op → Prop) (env : Env) : Prop :=
  ∀ c : Callback, ∃ ops : List Op, (∀ o, o ∈ ops → P o) ∧ ∀ g : Table, env c g = runOps ops g

/-- The call registers slot `i` with period `0`, or is not a registration of
slot `i`. -/
def Op.zeroPeriodAt (i : Fin STM0_MAX_TIMERS) : Op → Prop
  | Op.newTimer _ j d => j = i → d = 0
  | _ => True

/-- The call passes a callback other than `NULL`, or is not a registration. -/
def Op.nonNull : Op → Prop
  | Op.newTimer cb _ _ => cb ≠ NULL
  | _ => True

/-- The call passes a period that fits `uint32_t`, or is not a registration. -/
def Op.wellTyped : Op → Prop
  | Op.newTimer _ _ d => d < UINT32_MOD
  | _ => True

/-- Every running slot has a period of at least one tick. -/
def RunningHasPeriod (g : Table) : Prop :=
  ∀ j : Fin STM0_MAX_TIMERS, (g j).running = true → 1 ≤ (g j).tickDuration

/-- Every active slot holds a callback other than `NULL`. -/
def ActiveNonNull (g : Table) : Prop :=
  ∀ j : Fin STM0_MAX_TIMERS, (g j).active = true → (g j).callback ≠ NULL

/-- The counters between operations: every period fits `uint32_t`; a running
slot is active and its counter is below its period; a slot that is not running
has a zero counter. -/
def CountersInRange (g : Table) : Prop :=
  ∀ j : Fin STM0_MAX_TIMERS,
    (g j).tickDuration < UINT32_MOD ∧
    ((g j).running = true → (g j).active = true ∧ (g j).tickCount < (g j).tickDuration) ∧
    ((g j).running = false → (g j).tickCount = 0)

/-- Slot `i` has period `0` and is not running. -/
def ZeroPeriodSlot (i : Fin STM0_MAX_TIMERS) (g : Table) : Prop :=
  (g i).tickDuration = 0 ∧ (g i).running = false

/-! ## Lifecycle calls as sequences of writes -/

/-- The field writes of `Stm0_NewTimer` in source order (none if the guard fails). -/
def Stm0_NewTimer_writes (callback : Callback) (timerId : Fin STM0_MAX_TIMERS)
    (tickDuration : Nat) (g : Table) : List (Table → Table) :=
  if !(g timerId).active then
    [setTickCount timerId 0, setTickDuration timerId tickDuration,
      setCallback timerId callback, setActive timerId true, setRunning timerId false]
  else []

/-- The field writes of `Stm0_DeleteTimer` in source order (none if the guard fails). -/
def Stm0_DeleteTimer_writes (timerId : Fin STM0_MAX_TIMERS) (g : Table) :
    List (Table → Table) :=
  if (g timerId).active then
    [setTickCount timerId 0, setTickDuration timerId 0, setCallback timerId NULL,
      setActive timerId false, setRunning timerId false]
  else []

/-- The field writes of `Stm0_StartTimer` in source order (none if the guard fails). -/
def Stm0_StartTimer_writes (timerId : Fin STM0_MAX_TIMERS) (g : Table) :
    List (Table → Table) :=
  if (g timerId).active && decide ((g timerId).tickDuration > 0) then
    [setTickCount timerId 0, setRunning timerId true]
  else []

/-- The field writes of `Stm0_StopTimer` in source order (none if the guard fails). -/
def Stm0_StopTimer_writes (timerId : Fin STM0_MAX_TIMERS) (g : Table) :
    List (Table → Table) :=
  if (g timerId).active && decide ((g timerId).tickDuration > 0) then
    [setTickCount timerId 0, setRunning timerId false]
  else []

/-- Performs writes one after the other. -/
def applyWrites : List (Table → Table) → Table → Table
  | [], g => g
  | w :: rest, g => applyWrites rest (w g)

/-- A lifecycle call, given by its writes, interrupted by one handler invocation
after its first `k` writes; the remaining writes follow the handler. -/
def interrupted (env : Env) (writes : List (Table → Table)) (k : Nat) (s : Machine) :
    Machine × List Event :=
  let r := isrStm0_TickHandler env (s.call (applyWrites (writes.take k)))
  (r.1.call (applyWrites (writes.drop k)), r.2)

/-! ## More example environments and tables -/

/-- Timer `0` with callback `7` and period `5`, started. -/
def oneTimer : Table := Stm0_StartTimer 0 (Stm0_NewTimer 7 0 5 zeroTable)

/-- Callback `1` calls `Stm0_StopTimer(2)`, callback `2` calls
`Stm0_StartTimer(2)`; the others do nothing. -/
def stopStartEnv : Env := fun c g =>
  if c = 1 then Stm0_StopTimer 2 g else if c = 2 then Stm0_StartTimer 2 g else g

/-- Callback `1` calls `Stm0_StartTimer(2)`, callback `2` calls
`Stm0_StopTimer(2)`; the others do nothing. -/
def startStopEnv : Env := fun c g =>
  if c = 1 then Stm0_StartTimer 2 g else if c = 2 then Stm0_StopTimer 2 g else g

/-- Timers `0`, `1`, `2` with callbacks `1`, `2`, `3`, all of period one tick,
all started. -/
def threeTimers : Table :=
  Stm0_StartTimer 2 (Stm0_NewTimer 3 2 1
    (Stm0_StartTimer 1 (Stm0_NewTimer 2 1 1 (Stm0_StartTimer 0 (Stm0_NewTimer 1 0 1 zeroTable)))))

/-- Slot `0` (callback `1`, period one tick) running; slot `2` (callback `3`)
active and running with period `0`, a state no lifecycle call produces. -/
def zeroPeriodRunning : Table :=
  Function.update
    (Function.update zeroTable 0
      { tickCount := 0, tickDuration := 1, callback := 1, running := true, active := true })
    2 { tickCount := 0, tickDuration := 0, callback := 3, running := true, active := true }

/-! ## Field writes: basic facts -/

theorem setTickCount_same (i : Fin STM0_MAX_TIMERS) (v : Nat) (g : Table) :
    setTickCount i v g i = { g i with tickCount := v } := by
  simp [setTickCount]

theorem setTickCount_other {i j : Fin STM0_MAX_TIMERS} (h : j ≠ i) (v : Nat) (g : Table) :
    setTickCount i v g j = g j := by
  simp [setTickCount, h]

/-! ## The loop of the handler -/

theorem callsFrom_append (i : Fin STM0_MAX_TIMERS) (a b : List Event) :
    callsFrom i (a ++ b) = callsFrom i a ++ callsFrom i b := by
  induction a with
  | nil => rfl
  | cons e a ih =>
    cases e with
    | call j cb =>
      by_cases h : j = i
      · simp [callsFrom, h, ih]
      · simp [callsFrom, h, ih]
    | rearm v => simpa [callsFrom] using ih
    | count j => simpa [callsFrom] using ih
    | reset j => simpa [callsFrom] using ih

theorem tickLoop_append (env : Env) (l1 l2 : List (Fin STM0_MAX_TIMERS)) (g : Table) :
    tickLoop env (l1 ++ l2) g =
      ((tickLoop env l2 (tickLoop env l1 g).1).1,
        (tickLoop env l1 g).2 ++ (tickLoop env l2 (tickLoop env l1 g).1).2) := by
  induction l1 generalizing g with
  | nil => simp [tickLoop]
  | cons j l1 ih => simp [tickLoop, ih, List.append_assoc]

/-- A slot that is not both active and running is skipped. -/
theorem tickSlot_idle (env : Env) (i : Fin STM0_MAX_TIMERS) (g : Table)
    (h : (g i).active = false ∨ (g i).running = false) : tickSlot env i g = (g, []) := by
  unfold tickSlot
  rcases h with h | h
  · simp [h]
  · simp [h]

/-- A visited slot whose incremented counter stays below the period only counts. -/
theorem tickSlot_count (env : Env) (i : Fin STM0_MAX_TIMERS) (g : Table)
    (ha : (g i).active = true) (hr : (g i).running = true)
    (hlt : ((g i).tickCount + 1) % UINT32_MOD < (g i).tickDuration) :
    tickSlot env i g =
      (setTickCount i (((g i).tickCount + 1) % UINT32_MOD) g, [Event.count i]) := by
  unfold tickSlot
  simp [ha, hr, setTickCount_same, Nat.not_le.mpr hlt]

/-- A visited slot whose incremented counter reaches the period calls its
callback and is reset. -/
theorem tickSlot_fire (env : Env) (i : Fin STM0_MAX_TIMERS) (g : Table)
    (ha : (g i).active = true) (hr : (g i).running = true)
    (hge : (g i).tickDuration ≤ ((g i).tickCount + 1) % UINT32_MOD) :
    tickSlot env i g =
      (setTickCount i 0
          (env (g i).callback (setTickCount i (((g i).tickCount + 1) % UINT32_MOD) g)),
        [Event.count i, Event.call i (g i).callback, Event.reset i]) := by
  unfold tickSlot
  simp [ha, hr, setTickCount_same, hge]

/-- The three ways a visit of slot `i` can go. -/
theorem tickSlot_cases (env : Env) (i : Fin STM0_MAX_TIMERS) (g : Table) :
    tickSlot env i g = (g, []) ∨
    tickSlot env i g =
        (setTickCount i (((g i).tickCount + 1) % UINT32_MOD) g, [Event.count i]) ∨
    tickSlot env i g =
        (setTickCount i 0
            (env (g i).callback (setTickCount i (((g i).tickCount + 1) % UINT32_MOD) g)),
          [Event.count i, Event.call i (g i).callback, Event.reset i]) := by
  by_cases ha : (g i).active = true
  · by_cases hr : (g i).running = true
    · by_cases hlt : ((g i).tickCount + 1) % UINT32_MOD < (g i).tickDuration
      · exact Or.inr (Or.inl (tickSlot_count env i g ha hr hlt))
      · exact Or.inr (Or.inr (tickSlot_fire env i g ha hr (Nat.le_of_not_lt hlt)))
    · exact Or.inl (tickSlot_idle env i g (Or.inr (by simpa using hr)))
  · exact Or.inl (tickSlot_idle env i g (Or.inl (by simpa using ha)))

/-- Visiting slot `j` leaves another slot `i` alone when the callback called,
if any, does. -/
theorem tickSlot_other (env : Env) {i j : Fin STM0_MAX_TIMERS} (h : j ≠ i) (g : Table)
    (hk : ∀ c, Event.call j c ∈ (tickSlot env j g).2 → Keeps env i c) :
    (tickSlot env j g).1 i = g i := by
  have hij : i ≠ j := fun e => h e.symm
  rcases tickSlot_cases env j g with h0 | h0 | h0
  · rw [h0]
  · rw [h0]; exact setTickCount_other hij _ _
  · rw [h0] at hk ⊢
    have hc : Keeps env i (g j).callback := hk _ (by simp)
    show setTickCount j 0 _ i = g i
    rw [setTickCount_other hij, hc, setTickCount_other hij]

theorem callsFrom_tickSlot_other (env : Env) {i j : Fin STM0_MAX_TIMERS} (h : j ≠ i)
    (g : Table) : callsFrom i (tickSlot env j g).2 = [] := by
  rcases tickSlot_cases env j g with h0 | h0 | h0
  · rw [h0]; rfl
  · rw [h0]; rfl
  · rw [h0]; simp [callsFrom, h]

/-- A part of the loop that does not visit slot `i` neither changes it nor calls
from it, when the callbacks it calls leave slot `i` alone. -/
theorem tickLoop_frame (env : Env) (i : Fin STM0_MAX_TIMERS) :
    ∀ (l : List (Fin STM0_MAX_TIMERS)) (g : Table), i ∉ l →
      OthersKeep env i (tickLoop env l g).2 →
      (tickLoop env l g).1 i = g i ∧ callsFrom i (tickLoop env l g).2 = [] := by
  intro l
  induction l with
  | nil => intro g _ _; simp [tickLoop, callsFrom]
  | cons j l ih =>
    intro g hmem hk
    have hji : j ≠ i := fun e => hmem (by simp [e])
    have hil : i ∉ l := fun e => hmem (by simp [e])
    simp only [tickLoop] at hk ⊢
    have h1 : (tickSlot env j g).1 i = g i :=
      tickSlot_other env hji g (fun c hc => hk j c (by simp [hc]) hji)
    have h2 := ih (tickSlot env j g).1 hil
      (fun k c hc hki => hk k c (by simp [hc]) hki)
    refine ⟨by rw [h2.1, h1], ?_⟩
    rw [callsFrom_append, callsFrom_tickSlot_other env hji, h2.2]
    rfl

theorem finRange_split (i : Fin STM0_MAX_TIMERS) :
    ∃ l1 l2, List.finRange STM0_MAX_TIMERS = l1 ++ i :: l2 ∧ i ∉ l1 ∧ i ∉ l2 := by
  obtain ⟨l1, l2, h⟩ := List.append_of_mem (List.mem_finRange i)
  have hnd : (l1 ++ i :: l2).Nodup := h ▸ List.nodup_finRange STM0_MAX_TIMERS
  rw [List.nodup_middle, List.nodup_cons] at hnd
  refine ⟨l1, l2, h, ?_, ?_⟩
  · exact fun hm => hnd.1 (List.mem_append_left _ hm)
  · exact fun hm => hnd.1 (List.mem_append_right _ hm)

/-- In a loop that visits slot `i` once, what happens to slot `i` is what its
own visit does, when the callbacks called from other slots leave it alone. -/
theorem tickLoop_visit (env : Env) (i : Fin STM0_MAX_TIMERS)
    (l1 l2 : List (Fin STM0_MAX_TIMERS)) (g : Table) (h1 : i ∉ l1) (h2 : i ∉ l2)
    (hk : OthersKeep env i (tickLoop env (l1 ++ i :: l2) g).2) :
    ∃ ga : Table, ga i = g i ∧
      (tickLoop env (l1 ++ i :: l2) g).1 i = (tickSlot env i ga).1 i ∧
      callsFrom i (tickLoop env (l1 ++ i :: l2) g).2 = callsFrom i (tickSlot env i ga).2 := by
  rw [tickLoop_append] at hk ⊢
  simp only [tickLoop] at hk ⊢
  have hA := tickLoop_frame env i l1 g h1
    (fun j c hc hj => hk j c (by simp [hc]) hj)
  have hB := tickLoop_frame env i l2 (tickSlot env i (tickLoop env l1 g).1).1 h2
    (fun j c hc hj => hk j c (by simp [hc]) hj)
  refine ⟨(tickLoop env l1 g).1, hA.1, hB.1, ?_⟩
  rw [callsFrom_append, callsFrom_append, hA.2, hB.2]
  simp

theorem callsFrom_rearm (i : Fin STM0_MAX_TIMERS) (v : Nat) (evs : List Event) :
    callsFrom i (Event.rearm v :: evs) = callsFrom i evs := rfl

/-- One handler invocation, seen from slot `i`. -/
theorem handler_visit (env : Env) (i : Fin STM0_MAX_TIMERS) (s : Machine)
    (hk : OthersKeep env i (isrStm0_TickHandler env s).2) :
    ∃ ga : Table, ga i = s.timers i ∧
      (isrStm0_TickHandler env s).1.timers i = (tickSlot env i ga).1 i ∧
      callsFrom i (isrStm0_TickHandler env s).2 = callsFrom i (tickSlot env i ga).2 := by
  obtain ⟨l1, l2, hsplit, h1, h2⟩ := finRange_split i
  simp only [isrStm0_TickHandler, hsplit, callsFrom_rearm] at hk ⊢
  exact tickLoop_visit env i l1 l2 s.timers h1 h2
    (fun j c hc hj => hk j c (by simp [hc]) hj)

/-- A slot that is not both active and running is left alone by the handler. -/
theorem handler_idle (env : Env) (i : Fin STM0_MAX_TIMERS) (s : Machine)
    (hk : OthersKeep env i (isrStm0_TickHandler env s).2)
    (h : (s.timers i).active = false ∨ (s.timers i).running = false) :
    (isrStm0_TickHandler env s).1.timers i = s.timers i ∧
      callsFrom i (isrStm0_TickHandler env s).2 = [] := by
  obtain ⟨ga, hga, ht, hc⟩ := handler_visit env i s hk
  rw [tickSlot_idle env i ga (by rw [hga]; exact h)] at ht hc
  exact ⟨ht.trans hga, hc⟩

/-- A running slot whose incremented counter stays below its period only counts. -/
theorem handler_count (env : Env) (i : Fin STM0_MAX_TIMERS) (s : Machine)
    (hk : OthersKeep env i (isrStm0_TickHandler env s).2)
    (ha : (s.timers i).active = true) (hr : (s.timers i).running = true)
    (hlt : ((s.timers i).tickCount + 1) % UINT32_MOD < (s.timers i).tickDuration) :
    (isrStm0_TickHandler env s).1.timers i =
        { s.timers i with tickCount := ((s.timers i).tickCount + 1) % UINT32_MOD } ∧
      callsFrom i (isrStm0_TickHandler env s).2 = [] := by
  obtain ⟨ga, hga, ht, hc⟩ := handler_visit env i s hk
  rw [tickSlot_count env i ga (by rw [hga]; exact ha) (by rw [hga]; exact hr)
    (by rw [hga]; exact hlt)] at ht hc
  refine ⟨?_, hc⟩
  rw [ht]
  show setTickCount i _ ga i = _
  rw [setTickCount_same, hga]

/-- A running slot whose incremented counter reaches its period has its callback
called once, and its counter is zero afterwards. -/
theorem handler_fire (env : Env) (i : Fin STM0_MAX_TIMERS) (s : Machine)
    (hk : OthersKeep env i (isrStm0_TickHandler env s).2)
    (ha : (s.timers i).active = true) (hr : (s.timers i).running = true)
    (hge : (s.timers i).tickDuration ≤ ((s.timers i).tickCount + 1) % UINT32_MOD) :
    ((isrStm0_TickHandler env s).1.timers i).tickCount = 0 ∧
      callsFrom i (isrStm0_TickHandler env s).2 = [(s.timers i).callback] ∧
      (Keeps env i (s.timers i).callback →
        (isrStm0_TickHandler env s).1.timers i = { s.timers i with tickCount := 0 }) := by
  obtain ⟨ga, hga, ht, hc⟩ := handler_visit env i s hk
  rw [tickSlot_fire env i ga (by rw [hga]; exact ha) (by rw [hga]; exact hr)
    (by rw [hga]; exact hge)] at ht hc
  refine ⟨?_, ?_, ?_⟩
  · rw [ht]
    show (setTickCount i 0 _ i).tickCount = 0
    rw [setTickCount_same]
  · rw [hc, hga]
    simp [callsFrom]
  · intro hkeep
    rw [ht]
    show setTickCount i 0 _ i = _
    rw [setTickCount_same, hga, hkeep, setTickCount_same, hga]

/-! ## Lifecycle functions: effect on a slot -/

theorem newTimer_active (cb : Callback) (i : Fin STM0_MAX_TIMERS) (p : Nat) (g : Table)
    (h : (g i).active = true) : Stm0_NewTimer cb i p g = g := by
  simp [Stm0_NewTimer, h]

theorem newTimer_free (cb : Callback) (i : Fin STM0_MAX_TIMERS) (p : Nat) (g : Table)
    (h : (g i).active = false) :
    Stm0_NewTimer cb i p g i =
      { tickCount := 0, tickDuration := p, callback := cb, running := false, active := true } := by
  simp [Stm0_NewTimer, h, setRunning, setActive, setCallback, setTickDuration, setTickCount]

theorem newTimer_other (cb : Callback) {i j : Fin STM0_MAX_TIMERS} (h : j ≠ i) (p : Nat)
    (g : Table) : Stm0_NewTimer cb i p g j = g j := by
  unfold Stm0_NewTimer
  split
  · simp [setRunning, setActive, setCallback, setTickDuration, setTickCount, h]
  · rfl

theorem deleteTimer_free (i : Fin STM0_MAX_TIMERS) (g : Table)
    (h : (g i).active = false) : Stm0_DeleteTimer i g = g := by
  simp [Stm0_DeleteTimer, h]

theorem deleteTimer_active (i : Fin STM0_MAX_TIMERS) (g : Table)
    (h : (g i).active = true) : Stm0_DeleteTimer i g i = zeroTimer := by
  simp [Stm0_DeleteTimer, h, setRunning, setActive, setCallback, setTickDuration,
    setTickCount, zeroTimer]

theorem deleteTimer_other {i j : Fin STM0_MAX_TIMERS} (h : j ≠ i) (g : Table) :
    Stm0_DeleteTimer i g j = g j := by
  unfold Stm0_DeleteTimer
  split
  · simp [setRunning, setActive, setCallback, setTickDuration, setTickCount, h]
  · rfl

theorem startTimer_noop (i : Fin STM0_MAX_TIMERS) (g : Table)
    (h : (g i).active = false ∨ (g i).tickDuration = 0) : Stm0_StartTimer i g = g := by
  rcases h with h | h
  · simp [Stm0_StartTimer, h]
  · simp [Stm0_StartTimer, h]

theorem startTimer_effective (i : Fin STM0_MAX_TIMERS) (g : Table)
    (ha : (g i).active = true) (hd : 0 < (g i).tickDuration) :
    Stm0_StartTimer i g i = { g i with tickCount := 0, running := true } := by
  simp [Stm0_StartTimer, ha, hd, setRunning, setTickCount]

theorem startTimer_other {i j : Fin STM0_MAX_TIMERS} (h : j ≠ i) (g : Table) :
    Stm0_StartTimer i g j = g j := by
  unfold Stm0_StartTimer
  split
  · simp [setRunning, setTickCount, h]
  · rfl

theorem stopTimer_noop (i : Fin STM0_MAX_TIMERS) (g : Table)
    (h : (g i).active = false ∨ (g i).tickDuration = 0) : Stm0_StopTimer i g = g := by
  rcases h with h | h
  · simp [Stm0_StopTimer, h]
  · simp [Stm0_StopTimer, h]

theorem stopTimer_effective (i : Fin STM0_MAX_TIMERS) (g : Table)
    (ha : (g i).active = true) (hd : 0 < (g i).tickDuration) :
    Stm0_StopTimer i g i = { g i with tickCount := 0, running := false } := by
  simp [Stm0_StopTimer, ha, hd, setRunning, setTickCount]

theorem stopTimer_other {i j : Fin STM0_MAX_TIMERS} (h : j ≠ i) (g : Table) :
    Stm0_StopTimer i g j = g j := by
  unfold Stm0_StopTimer
  split
  · simp [setRunning, setTickCount, h]
  · rfl

/-- A timer created in a free slot with a period of at least one tick and then
started: the slot is running with a zero counter. -/
theorem new_start_slot (cb : Callback) (i : Fin STM0_MAX_TIMERS) (p : Nat) (g : Table)
    (hfree : (g i).active = false) (hp : 1 ≤ p) :
    Stm0_StartTimer i (Stm0_NewTimer cb i p g) i =
      { tickCount := 0, tickDuration := p, callback := cb, running := true, active := true } := by
  have h := newTimer_free cb i p g hfree
  rw [startTimer_effective i _ (by rw [h]) (by rw [h]; exact hp), h]

theorem mem_callsFrom (i : Fin STM0_MAX_TIMERS) (c : Callback) (evs : List Event) :
    c ∈ callsFrom i evs ↔ Event.call i c ∈ evs := by
  induction evs with
  | nil => simp [callsFrom]
  | cons e evs ih =>
    cases e with
    | call j cb =>
      by_cases h : j = i
      · subst h
        simp [callsFrom, ih]
      · have h2 : ¬ i = j := fun e => h e.symm
        simp [callsFrom, h, h2, ih]
    | rearm v => simp [callsFrom, ih]
    | count j => simp [callsFrom, ih]
    | reset j => simp [callsFrom, ih]

/-! ## Several handler invocations -/

theorem succ_mod_cases (n p : Nat) (hp : 0 < p) :
    (n % p + 1 < p ∧ (n + 1) % p = n % p + 1 ∧ ¬ p ∣ n + 1) ∨
    (n % p + 1 = p ∧ (n + 1) % p = 0 ∧ p ∣ n + 1) := by
  have hlt : n % p < p := Nat.mod_lt n hp
  have hmod : (n + 1) % p = (n % p + 1) % p := by rw [Nat.mod_add_mod]
  rcases Nat.lt_or_ge (n % p + 1) p with h | h
  · left
    have h1 : (n + 1) % p = n % p + 1 := by rw [hmod, Nat.mod_eq_of_lt h]
    refine ⟨h, h1, fun hd => ?_⟩
    have := Nat.mod_eq_zero_of_dvd hd
    omega
  · right
    have he : n % p + 1 = p := by omega
    have h1 : (n + 1) % p = 0 := by rw [hmod, he, Nat.mod_self]
    exact ⟨he, h1, Nat.dvd_of_mod_eq_zero h1⟩

/-- While fewer ticks than the period have gone by since the start, the slot
counts and its callback is not called. -/
theorem run_counting (env : Env) (i : Fin STM0_MAX_TIMERS) (s : Machine) (p : Nat)
    (cb : Callback) (hp : p < UINT32_MOD)
    (hs : s.timers i =
      { tickCount := 0, tickDuration := p, callback := cb, running := true, active := true })
    (n : Nat) (hn : n < p) (hk : ∀ k, k < n → OthersKeep env i (pass env k s)) :
    (run env n s).timers i =
        { tickCount := n, tickDuration := p, callback := cb, running := true, active := true } ∧
      ∀ k, k < n → callsFrom i (pass env k s) = [] := by
  induction n with
  | zero => exact ⟨hs, fun k hk0 => absurd hk0 (Nat.not_lt_zero k)⟩
  | succ n ih =>
    obtain ⟨hslot, hcalls⟩ := ih (by omega) (fun k hkn => hk k (by omega))
    have hv : ((run env n s).timers i).tickCount + 1 = n + 1 := by rw [hslot]
    have hmod : (n + 1) % UINT32_MOD = n + 1 := Nat.mod_eq_of_lt (by omega)
    have hstep := handler_count env i (run env n s) (hk n (by omega))
      (by rw [hslot]) (by rw [hslot]) (by rw [hv, hmod, hslot]; exact hn)
    refine ⟨?_, ?_⟩
    · show (isrStm0_TickHandler env (run env n s)).1.timers i = _
      rw [hstep.1, hv, hmod, hslot]
    · intro k hkn
      rcases Nat.lt_succ_iff_lt_or_eq.mp hkn with h | h
      · exact hcalls k h
      · rw [h]; exact hstep.2

/-- A started timer that nothing else touches fires on every multiple of its
period, and its counter is the number of ticks modulo the period. -/
theorem run_periodic (env : Env) (i : Fin STM0_MAX_TIMERS) (s : Machine) (p : Nat)
    (cb : Callback) (hp1 : 1 ≤ p) (hp : p < UINT32_MOD)
    (hs : s.timers i =
      { tickCount := 0, tickDuration := p, callback := cb, running := true, active := true })
    (n : Nat) (hk : ∀ k, k < n → AllKeep env i (pass env k s)) :
    (run env n s).timers i =
        { tickCount := n % p, tickDuration := p, callback := cb, running := true,
          active := true } ∧
      ∀ k, k < n → callsFrom i (pass env k s) = if p ∣ k + 1 then [cb] else [] := by
  induction n with
  | zero =>
    refine ⟨?_, fun k hk0 => absurd hk0 (Nat.not_lt_zero k)⟩
    simpa [run] using hs
  | succ n ih =>
    obtain ⟨hslot, hcalls⟩ := ih (fun k hkn => hk k (by omega))
    have hall : AllKeep env i (isrStm0_TickHandler env (run env n s)).2 := hk n (by omega)
    have hoth : OthersKeep env i (isrStm0_TickHandler env (run env n s)).2 :=
      fun j c hc _ => hall j c hc
    have hlt : n % p < p := Nat.mod_lt n hp1
    have hv : ((run env n s).timers i).tickCount + 1 = n % p + 1 := by rw [hslot]
    have hmod : (n % p + 1) % UINT32_MOD = n % p + 1 := Nat.mod_eq_of_lt (by omega)
    rcases succ_mod_cases n p hp1 with ⟨h1, h2, h3⟩ | ⟨h1, h2, h3⟩
    · have hstep := handler_count env i (run env n s) hoth
        (by rw [hslot]) (by rw [hslot]) (by rw [hv, hmod, hslot]; exact h1)
      refine ⟨?_, ?_⟩
      · show (isrStm0_TickHandler env (run env n s)).1.timers i = _
        rw [hstep.1, hv, hmod, hslot, h2]
      · intro k hkn
        rcases Nat.lt_succ_iff_lt_or_eq.mp hkn with h | h
        · exact hcalls k h
        · rw [h, if_neg h3]; exact hstep.2
    · have hstep := handler_fire env i (run env n s) hoth
        (by rw [hslot]) (by rw [hslot]) (by rw [hv, hmod, hslot]; exact Nat.le_of_eq h1.symm)
      have hcall : callsFrom i (isrStm0_TickHandler env (run env n s)).2 = [cb] := by
        rw [hstep.2.1, hslot]
      have hkeep : Keeps env i ((run env n s).timers i).callback := by
        have hmem : Event.call i ((run env n s).timers i).callback ∈
            (isrStm0_TickHandler env (run env n s)).2 := by
          rw [← mem_callsFrom, hcall, hslot]
          exact List.mem_singleton.mpr rfl
        exact hall i _ hmem
      refine ⟨?_, ?_⟩
      · show (isrStm0_TickHandler env (run env n s)).1.timers i = _
        rw [hstep.2.2 hkeep, hslot, h2]
      · intro k hkn
        rcases Nat.lt_succ_iff_lt_or_eq.mp hkn with h | h
        · exact hcalls k h
        · rw [h, if_pos h3]; exact hcall

/-- Counting the calls of a timer that fires on the multiples of its period. -/
theorem history_count (env : Env) (i : Fin STM0_MAX_TIMERS) (s : Machine) (p : Nat)
    (cb : Callback) (n : Nat)
    (h : ∀ k, k < n → callsFrom i (pass env k s) = if p ∣ k + 1 then [cb] else []) :
    (callsFrom i (history env n s)).length = n / p := by
  induction n with
  | zero => simp [history, callsFrom]
  | succ n ih =>
    have h1 := ih (fun k hkn => h k (by omega))
    have h2 := h n (by omega)
    simp only [history, callsFrom_append, List.length_append, h1, h2, Nat.succ_div]
    split <;> rfl

/-- A running slot with a zero counter and period `p` fires on the `p`-th
following tick and not before, when the callbacks called from other slots leave
it alone. -/
theorem fires_at_period (env : Env) (i : Fin STM0_MAX_TIMERS) (s : Machine) (p : Nat)
    (cb : Callback) (hp1 : 1 ≤ p) (hp32 : p < UINT32_MOD)
    (hs : s.timers i =
      { tickCount := 0, tickDuration := p, callback := cb, running := true, active := true })
    (hk : ∀ k, k < p → OthersKeep env i (pass env k s)) :
    (∀ k, k < p - 1 → callsFrom i (pass env k s) = []) ∧
    callsFrom i (pass env (p - 1) s) = [cb] ∧
    ((run env p s).timers i).tickCount = 0 := by
  obtain ⟨q, rfl⟩ : ∃ q, p = q + 1 := ⟨p - 1, by omega⟩
  obtain ⟨hslot, hcalls⟩ := run_counting env i s (q + 1) cb hp32 hs q
    (by omega) (fun k hkq => hk k (by omega))
  have hmod : (q + 1) % UINT32_MOD = q + 1 := Nat.mod_eq_of_lt hp32
  have hfire := handler_fire env i (run env q s)
    (hk q (by omega)) (by rw [hslot]) (by rw [hslot])
    (by rw [hslot]; exact Nat.le_of_eq hmod.symm)
  refine ⟨fun k hkq => hcalls k (by omega), ?_, hfire.1⟩
  have := hfire.2.1
  rw [hslot] at this
  exact this

/-- A slot that is not both active and running stays as it is and makes no call,
for as long as the callbacks called from other slots leave it alone. -/
theorem run_idle (env : Env) (i : Fin STM0_MAX_TIMERS) (s : Machine)
    (h : (s.timers i).active = false ∨ (s.timers i).running = false)
    (n : Nat) (hk : ∀ k, k < n → OthersKeep env i (pass env k s)) :
    (run env n s).timers i = s.timers i ∧ ∀ k, k < n → callsFrom i (pass env k s) = [] := by
  induction n with
  | zero => exact ⟨rfl, fun k hk0 => absurd hk0 (Nat.not_lt_zero k)⟩
  | succ n ih =>
    obtain ⟨hslot, hcalls⟩ := ih (fun k hkn => hk k (by omega))
    have hstep := handler_idle env i (run env n s) (hk n (by omega)) (by rw [hslot]; exact h)
    refine ⟨?_, ?_⟩
    · show (isrStm0_TickHandler env (run env n s)).1.timers i = _
      rw [hstep.1, hslot]
    · intro k hkn
      rcases Nat.lt_succ_iff_lt_or_eq.mp hkn with h1 | h1
      · exact hcalls k h1
      · rw [h1]; exact hstep.2

/-- A part of the loop that does not visit slot `i` makes no call from it. -/
theorem callsFrom_tickLoop_notin (env : Env) (i : Fin STM0_MAX_TIMERS) :
    ∀ (l : List (Fin STM0_MAX_TIMERS)) (g : Table), i ∉ l →
      callsFrom i (tickLoop env l g).2 = [] := by
  intro l
  induction l with
  | nil => intro g _; rfl
  | cons j l ih =>
    intro g hmem
    have hji : j ≠ i := fun e => hmem (by simp [e])
    have hil : i ∉ l := fun e => hmem (by simp [e])
    simp only [tickLoop]
    rw [callsFrom_append, callsFrom_tickSlot_other env hji, ih _ hil]
    rfl

theorem callsFrom_tickSlot_length (env : Env) (i j : Fin STM0_MAX_TIMERS) (g : Table) :
    (callsFrom i (tickSlot env j g).2).length ≤ 1 := by
  rcases tickSlot_cases env j g with h0 | h0 | h0
  · rw [h0]; simp [callsFrom]
  · rw [h0]; simp [callsFrom]
  · rw [h0]
    by_cases h : j = i
    · simp [callsFrom, h]
    · simp [callsFrom, h]

/-- A loop over distinct indices calls from each slot at most once. -/
theorem callsFrom_tickLoop_length (env : Env) (i : Fin STM0_MAX_TIMERS) :
    ∀ (l : List (Fin STM0_MAX_TIMERS)) (g : Table), l.Nodup →
      (callsFrom i (tickLoop env l g).2).length ≤ 1 := by
  intro l
  induction l with
  | nil => intro g _; simp [tickLoop, callsFrom]
  | cons j l ih =>
    intro g hnd
    rw [List.nodup_cons] at hnd
    simp only [tickLoop, callsFrom_append, List.length_append]
    by_cases h : j = i
    · rw [callsFrom_tickLoop_notin env i l _ (h ▸ hnd.1)]
      simpa using callsFrom_tickSlot_length env i j g
    · rw [callsFrom_tickSlot_other env h]
      simpa using ih _ hnd.2

/-! ## The invariant: running implies active -/

theorem setTickCount_invariant (i : Fin STM0_MAX_TIMERS) (v : Nat) (g : Table)
    (h : RunningImpliesActive g) : RunningImpliesActive (setTickCount i v g) := by
  intro j hr
  by_cases hj : j = i
  · subst hj
    rw [setTickCount_same] at hr ⊢
    exact h j hr
  · rw [setTickCount_other hj] at hr ⊢
    exact h j hr

theorem newTimer_invariant (cb : Callback) (i : Fin STM0_MAX_TIMERS) (p : Nat) (g : Table)
    (h : RunningImpliesActive g) : RunningImpliesActive (Stm0_NewTimer cb i p g) := by
  intro j hr
  by_cases hj : j = i
  · subst hj
    by_cases ha : (g j).active = true
    · rw [newTimer_active cb j p g ha]; exact ha
    · rw [newTimer_free cb j p g (by simpa using ha)]
  · rw [newTimer_other cb hj] at hr ⊢
    exact h j hr

theorem deleteTimer_invariant (i : Fin STM0_MAX_TIMERS) (g : Table)
    (h : RunningImpliesActive g) : RunningImpliesActive (Stm0_DeleteTimer i g) := by
  intro j hr
  by_cases hj : j = i
  · subst hj
    by_cases ha : (g j).active = true
    · rw [deleteTimer_active j g ha] at hr
      exact absurd hr (by simp [zeroTimer])
    · rw [deleteTimer_free j g (by simpa using ha)] at hr ⊢
      exact h j hr
  · rw [deleteTimer_other hj] at hr ⊢
    exact h j hr

theorem startTimer_invariant (i : Fin STM0_MAX_TIMERS) (g : Table)
    (h : RunningImpliesActive g) : RunningImpliesActive (Stm0_StartTimer i g) := by
  intro j hr
  by_cases hj : j = i
  · subst hj
    by_cases ha : (g j).active = true
    · by_cases hd : 0 < (g j).tickDuration
      · rw [startTimer_effective j g ha hd]; exact ha
      · rw [startTimer_noop j g (Or.inr (by omega))]; exact ha
    · rw [startTimer_noop j g (Or.inl (by simpa using ha))] at hr ⊢
      exact h j hr
  · rw [startTimer_other hj] at hr ⊢
    exact h j hr

theorem stopTimer_invariant (i : Fin STM0_MAX_TIMERS) (g : Table)
    (h : RunningImpliesActive g) : RunningImpliesActive (Stm0_StopTimer i g) := by
  intro j hr
  by_cases hj : j = i
  · subst hj
    by_cases ha : (g j).active = true
    · by_cases hd : 0 < (g j).tickDuration
      · rw [stopTimer_effective j g ha hd]; exact ha
      · rw [stopTimer_noop j g (Or.inr (by omega))]; exact ha
    · rw [stopTimer_noop j g (Or.inl (by simpa using ha))] at hr ⊢
      exact h j hr
  · rw [stopTimer_other hj] at hr ⊢
    exact h j hr

theorem op_invariant (o : Op) (g : Table) (h : RunningImpliesActive g) :
    RunningImpliesActive (o.apply g) := by
  cases o with
  | newTimer cb i d => exact newTimer_invariant cb i d g h
  | deleteTimer i => exact deleteTimer_invariant i g h
  | startTimer i => exact startTimer_invariant i g h
  | stopTimer i => exact stopTimer_invariant i g h

theorem runOps_invariant (ops : List Op) :
    ∀ g : Table, RunningImpliesActive g → RunningImpliesActive (runOps ops g) := by
  induction ops with
  | nil => intro g h; exact h
  | cons o ops ih => intro g h; exact ih _ (op_invariant o g h)

/-- The loop keeps the invariant when the callbacks do. -/
theorem tickLoop_invariant (env : Env)
    (henv : ∀ (c : Callback) (g : Table), RunningImpliesActive g → RunningImpliesActive (env c g)) :
    ∀ (l : List (Fin STM0_MAX_TIMERS)) (g : Table), RunningImpliesActive g →
      RunningImpliesActive (tickLoop env l g).1 := by
  intro l
  induction l with
  | nil => intro g h; exact h
  | cons j l ih =>
    intro g h
    simp only [tickLoop]
    apply ih
    rcases tickSlot_cases env j g with h0 | h0 | h0
    · rw [h0]; exact h
    · rw [h0]; exact setTickCount_invariant j _ g h
    · rw [h0]
      exact setTickCount_invariant j 0 _ (henv _ _ (setTickCount_invariant j _ g h))

theorem apiOnly_invariant (env : Env) (hapi : ApiOnly env) (c : Callback) (g : Table)
    (h : RunningImpliesActive g) : RunningImpliesActive (env c g) := by
  obtain ⟨ops, hops⟩ := hapi c
  rw [hops g]
  exact runOps_invariant ops g h

theorem handler_invariant (env : Env) (hapi : ApiOnly env) (s : Machine)
    (h : RunningImpliesActive s.timers) :
    RunningImpliesActive (isrStm0_TickHandler env s).1.timers :=
  tickLoop_invariant env (apiOnly_invariant env hapi) _ s.timers h

/-! ## The order of the calls -/

theorem calls_append (a b : List Event) : calls (a ++ b) = calls a ++ calls b := by
  induction a with
  | nil => rfl
  | cons e a ih =>
    cases e with
    | call j cb => simp [calls, ih]
    | rearm v => simpa [calls] using ih
    | count j => simpa [calls] using ih
    | reset j => simpa [calls] using ih

/-- With inert callbacks a visit touches only the slot visited, and calls its
callback exactly when the slot is due. -/
theorem tickSlot_inert (env : Env) (henv : Inert env) (j : Fin STM0_MAX_TIMERS) (g : Table) :
    (∀ k, k ≠ j → (tickSlot env j g).1 k = g k) ∧
    calls (tickSlot env j g).2 = if due g j = true then [(j, (g j).callback)] else [] := by
  by_cases ha : (g j).active = true
  · by_cases hr : (g j).running = true
    · by_cases hlt : ((g j).tickCount + 1) % UINT32_MOD < (g j).tickDuration
      · rw [tickSlot_count env j g ha hr hlt]
        refine ⟨fun k hk => setTickCount_other hk _ _, ?_⟩
        simp [due, ha, hr, Nat.not_le.mpr hlt, calls]
      · have hge := Nat.le_of_not_lt hlt
        rw [tickSlot_fire env j g ha hr hge]
        refine ⟨fun k hk => ?_, ?_⟩
        · show setTickCount j 0 _ k = g k
          rw [setTickCount_other hk, henv, setTickCount_other hk]
        · simp [due, ha, hr, hge, calls]
    · rw [tickSlot_idle env j g (Or.inr (by simpa using hr))]
      exact ⟨fun _ _ => rfl, by simp [due, hr, calls]⟩
  · rw [tickSlot_idle env j g (Or.inl (by simpa using ha))]
    exact ⟨fun _ _ => rfl, by simp [due, ha, calls]⟩

theorem due_congr (g h : Table) (k : Fin STM0_MAX_TIMERS) (e : h k = g k) :
    due h k = due g k := by
  simp [due, e]

/-- With inert callbacks the loop calls the callbacks of the due slots among the
indices it visits, in the order of the visit. -/
theorem tickLoop_inert (env : Env) (henv : Inert env) :
    ∀ (l : List (Fin STM0_MAX_TIMERS)) (g : Table), l.Nodup →
      (∀ k, k ∉ l → (tickLoop env l g).1 k = g k) ∧
      calls (tickLoop env l g).2 =
        (l.filter (fun i => due g i)).map (fun i => (i, (g i).callback)) := by
  intro l
  induction l with
  | nil => intro g _; exact ⟨fun _ _ => rfl, rfl⟩
  | cons j l ih =>
    intro g hnd
    rw [List.nodup_cons] at hnd
    obtain ⟨hframe, hcalls⟩ := tickSlot_inert env henv j g
    obtain ⟨ihframe, ihcalls⟩ := ih (tickSlot env j g).1 hnd.2
    have hagree : ∀ k, k ∈ l → (tickSlot env j g).1 k = g k :=
      fun k hk => hframe k (fun e => hnd.1 (e ▸ hk))
    simp only [tickLoop]
    refine ⟨fun k hk => ?_, ?_⟩
    · have hkj : k ≠ j := fun e => hk (by simp [e])
      have hkl : k ∉ l := fun e => hk (by simp [e])
      rw [ihframe k hkl, hframe k hkj]
    · rw [calls_append, hcalls, ihcalls]
      have hfilter : l.filter (fun i => due (tickSlot env j g).1 i) =
          l.filter (fun i => due g i) :=
        List.filter_congr (fun k hk => due_congr g _ k (hagree k hk))
      have hmap : (l.filter (fun i => due g i)).map
            (fun i => (i, ((tickSlot env j g).1 i).callback)) =
          (l.filter (fun i => due g i)).map (fun i => (i, (g i).callback)) :=
        List.map_congr_left (fun k hk => by rw [hagree k (List.mem_of_mem_filter hk)])
      rw [hfilter, hmap]
      by_cases hd : due g j = true
      · simp [List.filter_cons, hd]
      · simp [List.filter_cons, hd]

/-! ## Start and stop composed -/

theorem startTimer_startTimer (i : Fin STM0_MAX_TIMERS) (g : Table) :
    Stm0_StartTimer i (Stm0_StartTimer i g) = Stm0_StartTimer i g := by
  by_cases ha : (g i).active = true
  · by_cases hd : 0 < (g i).tickDuration
    · have h1 := startTimer_effective i g ha hd
      funext k
      by_cases hk : k = i
      · subst hk
        rw [startTimer_effective k _ (by rw [h1]; exact ha) (by rw [h1]; exact hd), h1]
      · rw [startTimer_other hk]
    · rw [startTimer_noop i g (Or.inr (by omega)), startTimer_noop i g (Or.inr (by omega))]
  · have h0 : (g i).active = false := by simpa using ha
    rw [startTimer_noop i g (Or.inl h0), startTimer_noop i g (Or.inl h0)]

theorem stopTimer_stopTimer (i : Fin STM0_MAX_TIMERS) (g : Table) :
    Stm0_StopTimer i (Stm0_StopTimer i g) = Stm0_StopTimer i g := by
  by_cases ha : (g i).active = true
  · by_cases hd : 0 < (g i).tickDuration
    · have h1 := stopTimer_effective i g ha hd
      funext k
      by_cases hk : k = i
      · subst hk
        rw [stopTimer_effective k _ (by rw [h1]; exact ha) (by rw [h1]; exact hd), h1]
      · rw [stopTimer_other hk]
    · rw [stopTimer_noop i g (Or.inr (by omega)), stopTimer_noop i g (Or.inr (by omega))]
  · have h0 : (g i).active = false := by simpa using ha
    rw [stopTimer_noop i g (Or.inl h0), stopTimer_noop i g (Or.inl h0)]

theorem startTimer_stopTimer (i : Fin STM0_MAX_TIMERS) (g : Table) :
    Stm0_StartTimer i (Stm0_StopTimer i g) = Stm0_StartTimer i g := by
  by_cases ha : (g i).active = true
  · by_cases hd : 0 < (g i).tickDuration
    · have h1 := stopTimer_effective i g ha hd
      funext k
      by_cases hk : k = i
      · subst hk
        rw [startTimer_effective k _ (by rw [h1]; exact ha) (by rw [h1]; exact hd), h1,
          startTimer_effective k g ha hd]
      · rw [startTimer_other hk, stopTimer_other hk, startTimer_other hk]
    · rw [stopTimer_noop i g (Or.inr (by omega))]
  · have h0 : (g i).active = false := by simpa using ha
    rw [stopTimer_noop i g (Or.inl h0)]

theorem stopTimer_startTimer (i : Fin STM0_MAX_TIMERS) (g : Table) :
    Stm0_StopTimer i (Stm0_StartTimer i g) = Stm0_StopTimer i g := by
  by_cases ha : (g i).active = true
  · by_cases hd : 0 < (g i).tickDuration
    · have h1 := startTimer_effective i g ha hd
      funext k
      by_cases hk : k = i
      · subst hk
        rw [stopTimer_effective k _ (by rw [h1]; exact ha) (by rw [h1]; exact hd), h1,
          stopTimer_effective k g ha hd]
      · rw [stopTimer_other hk, startTimer_other hk, stopTimer_other hk]
    · rw [startTimer_noop i g (Or.inr (by omega))]
  · have h0 : (g i).active = false := by simpa using ha
    rw [startTimer_noop i g (Or.inl h0)]

/-! ## The effects of the loop -/

/-- The loop emits no re-arm. -/
theorem rearm_not_mem_tickLoop (env : Env) (v : Nat) :
    ∀ (l : List (Fin STM0_MAX_TIMERS)) (g : Table), Event.rearm v ∉ (tickLoop env l g).2 := by
  intro l
  induction l with
  | nil => intro g; simp [tickLoop]
  | cons j l ih =>
    intro g
    simp only [tickLoop, List.mem_append, not_or]
    refine ⟨?_, ih _⟩
    rcases tickSlot_cases env j g with h0 | h0 | h0 <;> rw [h0] <;> simp

/-- A call made by the loop is made from one of the indices it visits. -/
theorem call_mem_tickLoop (env : Env) (k : Fin STM0_MAX_TIMERS) (c : Callback) :
    ∀ (l : List (Fin STM0_MAX_TIMERS)) (g : Table),
      Event.call k c ∈ (tickLoop env l g).2 → k ∈ l := by
  intro l
  induction l with
  | nil => intro g h; simp [tickLoop] at h
  | cons j l ih =>
    intro g h
    simp only [tickLoop, List.mem_append] at h
    rcases h with h | h
    · have hkj : k = j := by
        rcases tickSlot_cases env j g with h0 | h0 | h0 <;> rw [h0] at h <;> simp at h
        exact h.1
      simp [hkj]
    · exact List.mem_cons_of_mem _ (ih _ h)

/-! ## Invariants along sequences of operations -/

/-- What a lifecycle call can do to a slot. -/
theorem op_slot_cases (o : Op) (g : Table) (k : Fin STM0_MAX_TIMERS) :
    o.apply g k = g k ∨
    (∃ cb p, o = Op.newTimer cb k p ∧ (g k).active = false ∧
      o.apply g k =
        { tickCount := 0, tickDuration := p, callback := cb, running := false,
          active := true }) ∨
    ((g k).active = true ∧ o.apply g k = zeroTimer) ∨
    ((g k).active = true ∧ 0 < (g k).tickDuration ∧
      o.apply g k = { g k with tickCount := 0, running := true }) ∨
    ((g k).active = true ∧ 0 < (g k).tickDuration ∧
      o.apply g k = { g k with tickCount := 0, running := false }) := by
  cases o with
  | newTimer cb i d =>
    by_cases hk : k = i
    · subst hk
      by_cases ha : (g k).active = true
      · exact Or.inl (by show Stm0_NewTimer cb k d g k = g k; rw [newTimer_active cb k d g ha])
      · have h0 : (g k).active = false := by simpa using ha
        exact Or.inr (Or.inl ⟨cb, d, rfl, h0, newTimer_free cb k d g h0⟩)
    · exact Or.inl (newTimer_other cb hk d g)
  | deleteTimer i =>
    by_cases hk : k = i
    · subst hk
      by_cases ha : (g k).active = true
      · exact Or.inr (Or.inr (Or.inl ⟨ha, deleteTimer_active k g ha⟩))
      · have h0 : (g k).active = false := by simpa using ha
        exact Or.inl (by show Stm0_DeleteTimer k g k = g k; rw [deleteTimer_free k g h0])
    · exact Or.inl (deleteTimer_other hk g)
  | startTimer i =>
    by_cases hk : k = i
    · subst hk
      by_cases ha : (g k).active = true
      · by_cases hd : 0 < (g k).tickDuration
        · exact Or.inr (Or.inr (Or.inr (Or.inl ⟨ha, hd, startTimer_effective k g ha hd⟩)))
        · exact Or.inl (by
            show Stm0_StartTimer k g k = g k
            rw [startTimer_noop k g (Or.inr (by omega))])
      · have h0 : (g k).active = false := by simpa using ha
        exact Or.inl (by show Stm0_StartTimer k g k = g k; rw [startTimer_noop k g (Or.inl h0)])
    · exact Or.inl (startTimer_other hk g)
  | stopTimer i =>
    by_cases hk : k = i
    · subst hk
      by_cases ha : (g k).active = true
      · by_cases hd : 0 < (g k).tickDuration
        · exact Or.inr (Or.inr (Or.inr (Or.inr ⟨ha, hd, stopTimer_effective k g ha hd⟩)))
        · exact Or.inl (by
            show Stm0_StopTimer k g k = g k
            rw [stopTimer_noop k g (Or.inr (by omega))])
      · have h0 : (g k).active = false := by simpa using ha
        exact Or.inl (by show Stm0_StopTimer k g k = g k; rw [stopTimer_noop k g (Or.inl h0)])
    · exact Or.inl (stopTimer_other hk g)

theorem runOps_preserves (P : Table → Prop) (Q : Op → Prop)
    (hop : ∀ (o : Op) (g : Table), Q o → P g → P (o.apply g)) (ops : List Op) :
    ∀ g : Table, (∀ o, o ∈ ops → Q o) → P g → P (runOps ops g) := by
  induction ops with
  | nil => intro g _ h; exact h
  | cons o ops ih =>
    intro g hq h
    exact ih _ (fun o2 h2 => hq o2 (List.mem_cons_of_mem _ h2))
      (hop o g (hq o (List.mem_cons_self _ _)) h)

/-- Callbacks made of lifecycle calls satisfying `Q` keep what those calls keep. -/
theorem callback_preserves (P : Table → Prop) (Q : Op → Prop) (env : Env)
    (hapi : ApiOnlyWith Q env)
    (hop : ∀ (o : Op) (g : Table), Q o → P g → P (o.apply g)) (c : Callback) (g : Table)
    (h : P g) : P (env c g) := by
  obtain ⟨ops, hq, hops⟩ := hapi c
  rw [hops g]
  exact runOps_preserves P Q hop ops g hq h

/-- A visit keeps a predicate that counter writes and callbacks keep. -/
theorem tickSlot_preserves (env : Env) (P : Table → Prop)
    (hset : ∀ (i : Fin STM0_MAX_TIMERS) (v : Nat) (g : Table), P g → P (setTickCount i v g))
    (hcb : ∀ (c : Callback) (g : Table), P g → P (env c g))
    (j : Fin STM0_MAX_TIMERS) (g : Table) (h : P g) : P (tickSlot env j g).1 := by
  rcases tickSlot_cases env j g with h0 | h0 | h0
  · rw [h0]; exact h
  · rw [h0]; exact hset j _ g h
  · rw [h0]; exact hset j 0 _ (hcb _ _ (hset j _ g h))

/-- The loop keeps a predicate that every visit keeps, and its effects satisfy
what the effects of every visit satisfy. -/
theorem tickLoop_preserves (env : Env) (P : Table → Prop) (E : Event → Prop)
    (hslot : ∀ (j : Fin STM0_MAX_TIMERS) (g : Table), P g →
      P (tickSlot env j g).1 ∧ ∀ e, e ∈ (tickSlot env j g).2 → E e) :
    ∀ (l : List (Fin STM0_MAX_TIMERS)) (g : Table), P g →
      P (tickLoop env l g).1 ∧ ∀ e, e ∈ (tickLoop env l g).2 → E e := by
  intro l
  induction l with
  | nil => intro g h; exact ⟨h, fun e he => by simp [tickLoop] at he⟩
  | cons j l ih =>
    intro g h
    obtain ⟨h1, e1⟩ := hslot j g h
    obtain ⟨h2, e2⟩ := ih _ h1
    refine ⟨h2, fun e he => ?_⟩
    simp only [tickLoop, List.mem_append] at he
    rcases he with he | he
    · exact e1 e he
    · exact e2 e he

theorem handler_preserves (env : Env) (P : Table → Prop) (E : Event → Prop)
    (hslot : ∀ (j : Fin STM0_MAX_TIMERS) (g : Table), P g →
      P (tickSlot env j g).1 ∧ ∀ e, e ∈ (tickSlot env j g).2 → E e)
    (hrearm : ∀ v : Nat, E (Event.rearm v)) (s : Machine) (h : P s.timers) :
    P (isrStm0_TickHandler env s).1.timers ∧
      ∀ e, e ∈ (isrStm0_TickHandler env s).2 → E e := by
  obtain ⟨h1, e1⟩ := tickLoop_preserves env P E hslot (List.finRange STM0_MAX_TIMERS) s.timers h
  refine ⟨h1, fun e he => ?_⟩
  simp only [isrStm0_TickHandler, List.mem_cons] at he
  rcases he with he | he
  · rw [he]; exact hrearm _
  · exact e1 e he

/-- A sequence of steps keeps a predicate that its lifecycle calls and the
handler keep, and its effects satisfy what the effects of the handler satisfy. -/
theorem exec_preserves (env : Env) (P : Table → Prop) (Q : Op → Prop) (E : Event → Prop)
    (hop : ∀ (o : Op) (g : Table), Q o → P g → P (o.apply g))
    (htick : ∀ s : Machine, P s.timers →
      P (isrStm0_TickHandler env s).1.timers ∧ ∀ e, e ∈ (isrStm0_TickHandler env s).2 → E e) :
    ∀ (steps : List Step) (s : Machine), (∀ o, o ∈ stepOps steps → Q o) → P s.timers →
      P (exec env steps s).1.timers ∧ ∀ e, e ∈ (exec env steps s).2 → E e := by
  intro steps
  induction steps with
  | nil => intro s _ h; exact ⟨h, fun e he => by simp [exec] at he⟩
  | cons st steps ih =>
    intro s hq h
    cases st with
    | op o =>
      simp only [exec]
      exact ih _ (fun o2 h2 => hq o2 (by simp [stepOps, h2]))
        (hop o s.timers (hq o (by simp [stepOps])) h)
    | tick =>
      obtain ⟨h1, e1⟩ := htick s h
      obtain ⟨h2, e2⟩ := ih _ (fun o2 h2 => hq o2 (by simpa [stepOps] using h2)) h1
      refine ⟨h2, fun e he => ?_⟩
      simp only [exec, List.mem_append] at he
      rcases he with he | he
      · exact e1 e he
      · exact e2 e he

/-- The effects of a visit: counter writes of the slot visited, and a call of
its callback only if it is active and running. -/
theorem mem_tickSlot_events (env : Env) (j : Fin STM0_MAX_TIMERS) (g : Table) (e : Event)
    (he : e ∈ (tickSlot env j g).2) :
    e = Event.count j ∨ e = Event.reset j ∨
      (e = Event.call j (g j).callback ∧ (g j).active = true ∧ (g j).running = true) := by
  by_cases ha : (g j).active = true
  · by_cases hr : (g j).running = true
    · by_cases hlt : ((g j).tickCount + 1) % UINT32_MOD < (g j).tickDuration
      · rw [tickSlot_count env j g ha hr hlt] at he
        simp at he
        exact Or.inl he
      · rw [tickSlot_fire env j g ha hr (Nat.le_of_not_lt hlt)] at he
        simp at he
        rcases he with he | he | he
        · exact Or.inl he
        · exact Or.inr (Or.inr ⟨he, ha, hr⟩)
        · exact Or.inr (Or.inl he)
    · rw [tickSlot_idle env j g (Or.inr (by simpa using hr))] at he
      simp at he
  · rw [tickSlot_idle env j g (Or.inl (by simpa using ha))] at he
    simp at he

theorem op_runningHasPeriod (o : Op) (g : Table) (h : RunningHasPeriod g) :
    RunningHasPeriod (o.apply g) := by
  intro k hr
  rcases op_slot_cases o g k with h0 | ⟨cb, p, _, _, h0⟩ | ⟨_, h0⟩ | ⟨_, hd, h0⟩ | ⟨_, _, h0⟩
  · rw [h0] at hr ⊢; exact h k hr
  · rw [h0] at hr; simp at hr
  · rw [h0] at hr; simp [zeroTimer] at hr
  · rw [h0]; exact hd
  · rw [h0] at hr; simp at hr

theorem setTickCount_runningHasPeriod (i : Fin STM0_MAX_TIMERS) (v : Nat) (g : Table)
    (h : RunningHasPeriod g) : RunningHasPeriod (setTickCount i v g) := by
  intro k hr
  by_cases hk : k = i
  · subst hk
    rw [setTickCount_same] at hr ⊢
    exact h k hr
  · rw [setTickCount_other hk] at hr ⊢
    exact h k hr

theorem op_activeNonNull (o : Op) (g : Table) (hq : Op.nonNull o) (h : ActiveNonNull g) :
    ActiveNonNull (o.apply g) := by
  intro k ha
  rcases op_slot_cases o g k with h0 | ⟨cb, p, ho, _, h0⟩ | ⟨_, h0⟩ | ⟨ha0, _, h0⟩ | ⟨ha0, _, h0⟩
  · rw [h0] at ha ⊢; exact h k ha
  · rw [h0]
    subst ho
    exact hq
  · rw [h0] at ha; simp [zeroTimer] at ha
  · rw [h0]; exact h k ha0
  · rw [h0]; exact h k ha0

theorem setTickCount_activeNonNull (i : Fin STM0_MAX_TIMERS) (v : Nat) (g : Table)
    (h : ActiveNonNull g) : ActiveNonNull (setTickCount i v g) := by
  intro k ha
  by_cases hk : k = i
  · subst hk
    rw [setTickCount_same] at ha ⊢
    exact h k ha
  · rw [setTickCount_other hk] at ha ⊢
    exact h k ha

theorem op_zeroPeriodSlot (i : Fin STM0_MAX_TIMERS) (o : Op) (g : Table)
    (hq : Op.zeroPeriodAt i o) (h : ZeroPeriodSlot i g) : ZeroPeriodSlot i (o.apply g) := by
  unfold ZeroPeriodSlot at h ⊢
  rcases op_slot_cases o g i with h0 | ⟨cb, p, ho, _, h0⟩ | ⟨_, h0⟩ | ⟨_, hd, _⟩ | ⟨_, hd, _⟩
  · rw [h0]; exact h
  · rw [h0]
    subst ho
    exact ⟨hq rfl, rfl⟩
  · rw [h0]; exact ⟨rfl, rfl⟩
  · omega
  · omega

theorem setTickCount_zeroPeriodSlot (i j : Fin STM0_MAX_TIMERS) (v : Nat) (g : Table)
    (h : ZeroPeriodSlot i g) : ZeroPeriodSlot i (setTickCount j v g) := by
  unfold ZeroPeriodSlot at h ⊢
  by_cases hk : i = j
  · subst hk
    rw [setTickCount_same]
    exact h
  · rw [setTickCount_other hk]
    exact h

theorem op_countersInRange (o : Op) (g : Table) (hq : Op.wellTyped o)
    (h : CountersInRange g) : CountersInRange (o.apply g) := by
  intro k
  obtain ⟨hd32, hrun, hstop⟩ := h k
  rcases op_slot_cases o g k with h0 | ⟨cb, p, ho, _, h0⟩ | ⟨_, h0⟩ | ⟨ha, hd, h0⟩ | ⟨_, _, h0⟩
  · rw [h0]; exact ⟨hd32, hrun, hstop⟩
  · rw [h0]
    subst ho
    exact ⟨hq, fun hr => by simp at hr, fun _ => rfl⟩
  · rw [h0]
    exact ⟨by simp [zeroTimer], fun hr => by simp [zeroTimer] at hr, fun _ => rfl⟩
  · rw [h0]
    exact ⟨hd32, fun _ => ⟨ha, hd⟩, fun hr => by simp at hr⟩
  · rw [h0]
    exact ⟨hd32, fun hr => by simp at hr, fun _ => rfl⟩

/-- With inert callbacks a visit keeps the counters in range. -/
theorem tickSlot_countersInRange (env : Env) (henv : Inert env) (j : Fin STM0_MAX_TIMERS)
    (g : Table) (h : CountersInRange g) : CountersInRange (tickSlot env j g).1 := by
  by_cases ha : (g j).active = true
  · by_cases hr : (g j).running = true
    · obtain ⟨hd32, hrun, _⟩ := h j
      by_cases hlt : ((g j).tickCount + 1) % UINT32_MOD < (g j).tickDuration
      · rw [tickSlot_count env j g ha hr hlt]
        intro k
        by_cases hk : k = j
        · subst hk
          dsimp only
          rw [setTickCount_same]
          exact ⟨hd32, fun _ => ⟨ha, hlt⟩, fun hc => by simp [hr] at hc⟩
        · dsimp only
          rw [setTickCount_other hk]
          exact h k
      · rw [tickSlot_fire env j g ha hr (Nat.le_of_not_lt hlt)]
        intro k
        by_cases hk : k = j
        · subst hk
          dsimp only
          rw [setTickCount_same, henv, setTickCount_same]
          have hpos : 0 < (g k).tickDuration := Nat.lt_of_le_of_lt (Nat.zero_le _) (hrun hr).2
          exact ⟨hd32, fun _ => ⟨ha, hpos⟩, fun hc => by simp [hr] at hc⟩
        · dsimp only
          rw [setTickCount_other hk, henv, setTickCount_other hk]
          exact h k
    · rw [tickSlot_idle env j g (Or.inr (by simpa using hr))]
      exact h
  · rw [tickSlot_idle env j g (Or.inl (by simpa using ha))]
    exact h

theorem callsFrom_eq_nil (i : Fin STM0_MAX_TIMERS) (evs : List Event)
    (h : ∀ e, e ∈ evs → ∀ c : Callback, e ≠ Event.call i c) : callsFrom i evs = [] := by
  rw [List.eq_nil_iff_forall_not_mem]
  intro c hc
  exact h _ ((mem_callsFrom i c evs).mp hc) c rfl

theorem zeroTable_countersInRange : CountersInRange zeroTable := by
  intro k
  exact ⟨by simp [zeroTable, zeroTimer], fun hr => by simp [zeroTable, zeroTimer] at hr,
    fun _ => rfl⟩

/-! ## Two slots in one pass -/

/-- A strictly ascending list splits at any of its members into the smaller
members, the member, and the larger members. -/
theorem ascending_split (l : List (Fin STM0_MAX_TIMERS)) (hs : l.Pairwise (fun a b => a < b))
    (i : Fin STM0_MAX_TIMERS) (hi : i ∈ l) :
    ∃ l1 l2, l = l1 ++ i :: l2 ∧ (∀ k, k ∈ l1 → k < i) ∧ (∀ k, k ∈ l2 → i < k) ∧
      l2.Pairwise (fun a b => a < b) := by
  obtain ⟨l1, l2, h⟩ := List.append_of_mem hi
  subst h
  rw [List.pairwise_append, List.pairwise_cons] at hs
  exact ⟨l1, l2, rfl, fun k hk => hs.2.2 k hk i (List.mem_cons_self _ _),
    fun k hk => hs.2.1.1 k hk, hs.2.1.2⟩

/-- The indices of the table split at `i < j`. -/
theorem finRange_split_pair (i j : Fin STM0_MAX_TIMERS) (hij : i < j) :
    ∃ l1 l2 l3, List.finRange STM0_MAX_TIMERS = l1 ++ i :: (l2 ++ j :: l3) ∧
      (∀ k, k ∈ l1 → k < i) ∧ (∀ k, k ∈ l2 → i < k ∧ k < j) ∧ (∀ k, k ∈ l3 → j < k) := by
  obtain ⟨l1, r, h, h1, h2, hr⟩ := ascending_split _
    (List.pairwise_lt_finRange STM0_MAX_TIMERS) i (List.mem_finRange i)
  have hj : j ∈ r := by
    have hmem : j ∈ l1 ++ i :: r := h ▸ List.mem_finRange j
    rcases List.mem_append.mp hmem with hm | hm
    · exact absurd (h1 j hm) (by omega)
    · rcases List.mem_cons.mp hm with hm | hm
      · exact absurd hm (by omega)
      · exact hm
  obtain ⟨l2, l3, h', h3, h4, _⟩ := ascending_split r hr j hj
  subst h'
  exact ⟨l1, l2, l3, h, h1,
    fun k hk => ⟨h2 k (List.mem_append_left _ hk), h3 k hk⟩, h4⟩

/-- The effects of a visit do not depend on what the callbacks do. -/
theorem tickSlot_events_env (env env2 : Env) (j : Fin STM0_MAX_TIMERS) (g : Table) :
    (tickSlot env2 j g).2 = (tickSlot env j g).2 := by
  by_cases ha : (g j).active = true
  · by_cases hr : (g j).running = true
    · by_cases hlt : ((g j).tickCount + 1) % UINT32_MOD < (g j).tickDuration
      · rw [tickSlot_count env j g ha hr hlt, tickSlot_count env2 j g ha hr hlt]
      · rw [tickSlot_fire env j g ha hr (Nat.le_of_not_lt hlt),
          tickSlot_fire env2 j g ha hr (Nat.le_of_not_lt hlt)]
    · rw [tickSlot_idle env j g (Or.inr (by simpa using hr)),
        tickSlot_idle env2 j g (Or.inr (by simpa using hr))]
  · rw [tickSlot_idle env j g (Or.inl (by simpa using ha)),
      tickSlot_idle env2 j g (Or.inl (by simpa using ha))]

/-- A visit is the same under two environments that agree on the callback it
calls. -/
theorem tickSlot_congr (env env2 : Env) (j : Fin STM0_MAX_TIMERS) (g : Table)
    (h : ∀ c, Event.call j c ∈ (tickSlot env j g).2 → ∀ t : Table, env2 c t = env c t) :
    tickSlot env2 j g = tickSlot env j g := by
  by_cases ha : (g j).active = true
  · by_cases hr : (g j).running = true
    · by_cases hlt : ((g j).tickCount + 1) % UINT32_MOD < (g j).tickDuration
      · rw [tickSlot_count env j g ha hr hlt, tickSlot_count env2 j g ha hr hlt]
      · have hf := tickSlot_fire env j g ha hr (Nat.le_of_not_lt hlt)
        rw [hf] at h
        rw [hf, tickSlot_fire env2 j g ha hr (Nat.le_of_not_lt hlt), h _ (by simp)]
    · rw [tickSlot_idle env j g (Or.inr (by simpa using hr)),
        tickSlot_idle env2 j g (Or.inr (by simpa using hr))]
  · rw [tickSlot_idle env j g (Or.inl (by simpa using ha)),
      tickSlot_idle env2 j g (Or.inl (by simpa using ha))]

/-- A loop is the same under two environments that agree on the callbacks it
calls. -/
theorem tickLoop_congr (env env2 : Env) :
    ∀ (l : List (Fin STM0_MAX_TIMERS)) (g : Table),
      (∀ k c, Event.call k c ∈ (tickLoop env l g).2 → ∀ t : Table, env2 c t = env c t) →
      tickLoop env2 l g = tickLoop env l g := by
  intro l
  induction l with
  | nil => intro g _; rfl
  | cons j l ih =>
    intro g h
    simp only [tickLoop] at h ⊢
    have h1 : tickSlot env2 j g = tickSlot env j g :=
      tickSlot_congr env env2 j g (fun c hc => h j c (List.mem_append_left _ hc))
    rw [h1, ih _ (fun k c hc => h k c (List.mem_append_right _ hc))]

/-- Whether slot `i` fires in a pass depends only on the callbacks called from
the slots before it. -/
theorem handler_calls_congr (env env2 : Env) (s : Machine) (i : Fin STM0_MAX_TIMERS)
    (h : ∀ k c, k < i → Event.call k c ∈ (isrStm0_TickHandler env s).2 →
      ∀ t : Table, env2 c t = env c t) :
    callsFrom i (isrStm0_TickHandler env2 s).2 = callsFrom i (isrStm0_TickHandler env s).2 := by
  obtain ⟨l1, l2, hsplit, h1, h2, _⟩ := ascending_split _
    (List.pairwise_lt_finRange STM0_MAX_TIMERS) i (List.mem_finRange i)
  have hi1 : i ∉ l1 := fun hm => absurd (h1 i hm) (lt_irrefl i)
  have hi2 : i ∉ l2 := fun hm => absurd (h2 i hm) (lt_irrefl i)
  simp only [isrStm0_TickHandler, hsplit, callsFrom_rearm] at h ⊢
  rw [tickLoop_append, tickLoop_append] at *
  simp only [tickLoop, callsFrom_append] at h ⊢
  have hl1 : tickLoop env2 l1 s.timers = tickLoop env l1 s.timers :=
    tickLoop_congr env env2 l1 s.timers (fun k c hc =>
      h k c (h1 k (call_mem_tickLoop env k c l1 _ hc)) (by simp [hc]))
  rw [hl1, callsFrom_tickLoop_notin env2 i l2 _ hi2, callsFrom_tickLoop_notin env i l2 _ hi2,
    tickSlot_events_env env env2 i]

/-- Slot `i` fires in a pass and calls `ci`; the callbacks called from the other
slots below `j` leave slot `j` alone. Then slot `j` is visited as `ci` left it. -/
theorem handler_pair (env : Env) (s : Machine) (i j : Fin STM0_MAX_TIMERS) (hij : i < j)
    (ci : Callback) (hcall : Event.call i ci ∈ (isrStm0_TickHandler env s).2)
    (hk : ∀ k c, Event.call k c ∈ (isrStm0_TickHandler env s).2 → k < j → k ≠ i →
      Keeps env j c) :
    ∃ g1 gc : Table, g1 j = s.timers j ∧ gc j = (env ci g1) j ∧
      callsFrom j (isrStm0_TickHandler env s).2 = callsFrom j (tickSlot env j gc).2 := by
  obtain ⟨l1, l2, l3, hsplit, h1, h2, h3⟩ := finRange_split_pair i j hij
  have hne : j ≠ i := fun e => by rw [e] at hij; exact lt_irrefl i hij
  have hj1 : j ∉ l1 := fun hm => by have := h1 j hm; omega
  have hj2 : j ∉ l2 := fun hm => absurd (h2 j hm).2 (lt_irrefl j)
  have hj3 : j ∉ l3 := fun hm => absurd (h3 j hm) (lt_irrefl j)
  have hi1 : i ∉ l1 := fun hm => absurd (h1 i hm) (lt_irrefl i)
  have hi2 : i ∉ l2 := fun hm => absurd (h2 i hm).1 (lt_irrefl i)
  have hi3 : i ∉ l3 := fun hm => by have := h3 i hm; omega
  simp only [isrStm0_TickHandler, hsplit, List.mem_cons, callsFrom_rearm] at hcall hk ⊢
  rw [tickLoop_append] at hcall hk ⊢
  simp only [tickLoop] at hcall hk ⊢
  rw [tickLoop_append] at hcall hk ⊢
  simp only [tickLoop] at hcall hk ⊢
  generalize hga : (tickLoop env l1 s.timers) = ra at hcall hk ⊢
  generalize hgb : tickSlot env i ra.1 = rb at hcall hk ⊢
  generalize hgc : tickLoop env l2 rb.1 = rc at hcall hk ⊢
  generalize hgd : tickSlot env j rc.1 = rd at hcall hk ⊢
  generalize hge : tickLoop env l3 rd.1 = re at hcall hk ⊢
  -- slot j is left alone by the visits before slot i
  have hA := tickLoop_frame env j l1 s.timers hj1 (fun k c hc hkj => by
    rw [hga] at hc
    have hkl : k ∈ l1 := call_mem_tickLoop env k c l1 _ (hga ▸ hc)
    have hki : k ≠ i := fun e => hi1 (e ▸ hkl)
    exact hk k c (by simp [hc]) (by have := h1 k hkl; omega) hki)
  rw [hga] at hA
  -- slot i fires and calls ci
  have hci : Event.call i ci ∈ rb.2 := by
    rcases hcall with hcall | hcall
    · exact Event.noConfusion hcall
    · simp only [List.mem_append] at hcall
      rcases hcall with hcall | hcall | hcall | hcall | hcall
      · exact absurd (call_mem_tickLoop env i ci l1 _ (hga ▸ hcall)) hi1
      · exact hcall
      · exact absurd (call_mem_tickLoop env i ci l2 _ (hgc ▸ hcall)) hi2
      · rw [← hgd] at hcall
        rcases mem_tickSlot_events env j rc.1 _ hcall with h0 | h0 | ⟨h0, _, _⟩
        · exact Event.noConfusion h0
        · exact Event.noConfusion h0
        · injection h0 with h0 _
          exact absurd h0.symm hne
      · exact absurd (call_mem_tickLoop env i ci l3 _ (hge ▸ hcall)) hi3
  have hfire : rb = (setTickCount i 0
        (env ci (setTickCount i (((ra.1 i).tickCount + 1) % UINT32_MOD) ra.1)),
      [Event.count i, Event.call i ci, Event.reset i]) := by
    rw [← hgb] at hci ⊢
    rcases tickSlot_cases env i ra.1 with h0 | h0 | h0
    · rw [h0] at hci; simp at hci
    · rw [h0] at hci; simp at hci
    · rw [h0] at hci ⊢
      simp at hci
      rw [hci]
  -- slot j is left alone by the visits between slot i and slot j
  have hB := tickLoop_frame env j l2 rb.1 hj2 (fun k c hc hkj => by
    have hkl : k ∈ l2 := call_mem_tickLoop env k c l2 _ hc
    have hki : k ≠ i := fun e => hi2 (e ▸ hkl)
    rw [hgc] at hc
    exact hk k c (by simp [hc]) (h2 k hkl).2 hki)
  rw [hgc] at hB
  refine ⟨setTickCount i (((ra.1 i).tickCount + 1) % UINT32_MOD) ra.1, rc.1, ?_, ?_, ?_⟩
  · rw [setTickCount_other hne, hA.1]
  · rw [hB.1, hfire]
    exact setTickCount_other hne _ _
  · have hC := callsFrom_tickLoop_notin env j l3 rd.1 hj3
    rw [hge] at hC
    rw [callsFrom_append, callsFrom_append, callsFrom_append, callsFrom_append, hA.2, hB.2, hC]
    have hD : callsFrom j rb.2 = [] := by
      rw [← hgb]; exact callsFrom_tickSlot_other env (fun e => hne e.symm) _
    rw [hD, hgd]
    simp

/-! ## Lifecycle calls and their writes -/

theorem newTimer_writes (cb : Callback) (i : Fin STM0_MAX_TIMERS) (p : Nat) (g : Table) :
    applyWrites (Stm0_NewTimer_writes cb i p g) g = Stm0_NewTimer cb i p g := by
  unfold Stm0_NewTimer_writes Stm0_NewTimer
  split <;> rfl

theorem deleteTimer_writes (i : Fin STM0_MAX_TIMERS) (g : Table) :
    applyWrites (Stm0_DeleteTimer_writes i g) g = Stm0_DeleteTimer i g := by
  unfold Stm0_DeleteTimer_writes Stm0_DeleteTimer
  split <;> rfl

theorem startTimer_writes (i : Fin STM0_MAX_TIMERS) (g : Table) :
    applyWrites (Stm0_StartTimer_writes i g) g = Stm0_StartTimer i g := by
  unfold Stm0_StartTimer_writes Stm0_StartTimer
  split <;> rfl

theorem stopTimer_writes (i : Fin STM0_MAX_TIMERS) (g : Table) :
    applyWrites (Stm0_StopTimer_writes i g) g = Stm0_StopTimer i g := by
  unfold Stm0_StopTimer_writes Stm0_StopTimer
  split <;> rfl

theorem due_true (g : Table) (j : Fin STM0_MAX_TIMERS) (h : due g j = true) :
    (g j).active = true ∧ (g j).running = true := by
  simp only [due, Bool.and_eq_true] at h
  exact ⟨h.1.1, h.1.2⟩

/-! ## The claims -/

/-- C1: for an index `i < 15`, a period `1 ≤ p < 2^32`, a callback `cb` and a
table whose slot `i` is free, if the callbacks called from other slots do not
modify slot `i`, then after `Stm0_NewTimer(cb, i, p)` and `Stm0_StartTimer(i)`
the first `p - 1` invocations of `isrStm0_TickHandler` make no call from slot `i`,
the `p`-th calls `cb` from slot `i` exactly once, and afterwards the `tickCount` of
slot `i` is `0`. -/
theorem newTimer_start_fires_at_period (env : Env) (g : Table) (i : Fin STM0_MAX_TIMERS)
    (p : Nat) (cb : Callback) (cmp t : Nat)
    (hfree : (g i).active = false) (hp1 : 1 ≤ p) (hp32 : p < UINT32_MOD)
    (hk : ∀ k, k < p → OthersKeep env i
      (pass env k ⟨cmp, t, Stm0_StartTimer i (Stm0_NewTimer cb i p g)⟩)) :
    (∀ k, k < p - 1 →
      callsFrom i (pass env k ⟨cmp, t, Stm0_StartTimer i (Stm0_NewTimer cb i p g)⟩) = []) ∧
    callsFrom i (pass env (p - 1) ⟨cmp, t, Stm0_StartTimer i (Stm0_NewTimer cb i p g)⟩)
      = [cb] ∧
    ((run env p ⟨cmp, t, Stm0_StartTimer i (Stm0_NewTimer cb i p g)⟩).timers i).tickCount
      = 0 := by
  exact fires_at_period env i _ p cb hp1 hp32 (new_start_slot cb i p g hfree hp1) hk

/-- C1, at slot `3` of the zero table with period `5` and inert callbacks. -/
theorem newTimer_start_fires_at_period_witness :
    (∀ k, k < 5 - 1 →
      callsFrom 3 (pass inertEnv k ⟨0, 1, Stm0_StartTimer 3 (Stm0_NewTimer 42 3 5 zeroTable)⟩)
        = []) ∧
    callsFrom 3 (pass inertEnv (5 - 1) ⟨0, 1, Stm0_StartTimer 3 (Stm0_NewTimer 42 3 5 zeroTable)⟩)
      = [42] ∧
    ((run inertEnv 5 ⟨0, 1, Stm0_StartTimer 3 (Stm0_NewTimer 42 3 5 zeroTable)⟩).timers 3).tickCount
      = 0 :=
  newTimer_start_fires_at_period inertEnv zeroTable 3 5 42 0 1 rfl (by decide) (by decide)
    (fun _ _ _ _ _ _ _ => rfl)

/-- C2: for an index `i < 15`, a period `p ≥ 1` (a `uint32_t`) and `N ≥ 0`, after
`Stm0_NewTimer(cb, i, p)` on a free slot `i` and `Stm0_StartTimer(i)`, if nothing
called during the ticks modifies slot `i`, the `k`-th invocation of
`isrStm0_TickHandler` (`1 ≤ k ≤ N`) calls `cb` from slot `i` exactly once when `p`
divides `k` and not at all otherwise; the calls in `N` ticks number `N / p`; with
`p = 1` every tick calls `cb` exactly once. -/
theorem started_timer_fires_periodically (env : Env) (g : Table)
    (i : Fin STM0_MAX_TIMERS) (p : Nat) (cb : Callback) (cmp t N : Nat)
    (hfree : (g i).active = false) (hp1 : 1 ≤ p) (hp32 : p < UINT32_MOD)
    (hk : ∀ k, k < N → AllKeep env i
      (pass env k ⟨cmp, t, Stm0_StartTimer i (Stm0_NewTimer cb i p g)⟩)) :
    (∀ k, 1 ≤ k → k ≤ N →
      callsFrom i (pass env (k - 1) ⟨cmp, t, Stm0_StartTimer i (Stm0_NewTimer cb i p g)⟩)
        = if p ∣ k then [cb] else []) ∧
    (callsFrom i (history env N ⟨cmp, t, Stm0_StartTimer i (Stm0_NewTimer cb i p g)⟩)).length
      = N / p ∧
    (p = 1 → ∀ k, 1 ≤ k → k ≤ N →
      callsFrom i (pass env (k - 1) ⟨cmp, t, Stm0_StartTimer i (Stm0_NewTimer cb i p g)⟩)
        = [cb]) := by
  have hs := new_start_slot cb i p g hfree hp1
  obtain ⟨_, hcalls⟩ := run_periodic env i
    ⟨cmp, t, Stm0_StartTimer i (Stm0_NewTimer cb i p g)⟩ p cb hp1 hp32 hs N hk
  have hmain : ∀ k, 1 ≤ k → k ≤ N →
      callsFrom i (pass env (k - 1) ⟨cmp, t, Stm0_StartTimer i (Stm0_NewTimer cb i p g)⟩)
        = if p ∣ k then [cb] else [] := by
    intro k hk1 hkN
    have h := hcalls (k - 1) (by omega)
    rwa [Nat.sub_add_cancel hk1] at h
  refine ⟨hmain, history_count env i _ p cb N hcalls, ?_⟩
  intro hp k hk1 hkN
  rw [hmain k hk1 hkN, hp, if_pos (Nat.one_dvd k)]

/-- C2, the scenario of the spec: slot `3`, period `5`, ten ticks. The timer fires
on ticks `5` and `10` only, twice in all. -/
theorem started_timer_fires_periodically_witness :
    (∀ k, 1 ≤ k → k ≤ 10 →
      callsFrom 3 (pass inertEnv (k - 1)
        ⟨0, 1, Stm0_StartTimer 3 (Stm0_NewTimer 42 3 5 zeroTable)⟩)
        = if 5 ∣ k then [42] else []) ∧
    (callsFrom 3 (history inertEnv 10
        ⟨0, 1, Stm0_StartTimer 3 (Stm0_NewTimer 42 3 5 zeroTable)⟩)).length = 10 / 5 :=
  have h := started_timer_fires_periodically inertEnv zeroTable 3 5 42 0 1 10 rfl
    (by decide) (by decide) (fun _ _ _ _ _ _ => rfl)
  ⟨h.1, h.2.1⟩

/-- C3: for every table and index `i < 15` whose slot is active, and every
callback `cb2` and period `p2`, `Stm0_NewTimer(cb2, i, p2)` returns the table
unchanged; slot `i` keeps its callback, `tickDuration`, `tickCount` and running
flag. -/
theorem newTimer_on_active_is_noop (g : Table) (i : Fin STM0_MAX_TIMERS) (cb2 : Callback)
    (p2 : Nat) (h : (g i).active = true) :
    Stm0_NewTimer cb2 i p2 g = g ∧
    (Stm0_NewTimer cb2 i p2 g i).callback = (g i).callback ∧
    (Stm0_NewTimer cb2 i p2 g i).tickDuration = (g i).tickDuration ∧
    (Stm0_NewTimer cb2 i p2 g i).tickCount = (g i).tickCount ∧
    (Stm0_NewTimer cb2 i p2 g i).running = (g i).running := by
  rw [newTimer_active cb2 i p2 g h]
  exact ⟨rfl, rfl, rfl, rfl, rfl⟩

/-- C3, on the two started timers: a second registration of slot `1` with another
callback and period changes nothing. -/
theorem newTimer_on_active_is_noop_witness :
    Stm0_NewTimer 9 1 77 twoTimers = twoTimers ∧
    (Stm0_NewTimer 9 1 77 twoTimers 1).callback = (twoTimers 1).callback ∧
    (Stm0_NewTimer 9 1 77 twoTimers 1).tickDuration = (twoTimers 1).tickDuration ∧
    (Stm0_NewTimer 9 1 77 twoTimers 1).tickCount = (twoTimers 1).tickCount ∧
    (Stm0_NewTimer 9 1 77 twoTimers 1).running = (twoTimers 1).running :=
  newTimer_on_active_is_noop twoTimers 1 9 77 (by decide)

/-- C5: for every table, index `i < 15`, callback `cb` and period `p`, after
`Stm0_DeleteTimer(i)` and then `Stm0_NewTimer(cb, i, p)` slot `i` is the slot that
`Stm0_NewTimer(cb, i, p)` makes of a zero-initialised slot: active, not running,
`tickCount` `0`, `tickDuration` `p`, callback `cb`, whatever the slot held before. -/
theorem delete_then_new_is_fresh (g : Table) (i : Fin STM0_MAX_TIMERS) (cb : Callback)
    (p : Nat) :
    Stm0_NewTimer cb i p (Stm0_DeleteTimer i g) i = Stm0_NewTimer cb i p zeroTable i ∧
    Stm0_NewTimer cb i p (Stm0_DeleteTimer i g) i =
      { tickCount := 0, tickDuration := p, callback := cb, running := false, active := true } := by
  have hfree : (Stm0_DeleteTimer i g i).active = false := by
    by_cases ha : (g i).active = true
    · rw [deleteTimer_active i g ha]; rfl
    · have ha2 : (g i).active = false := by simpa using ha
      rw [deleteTimer_free i g ha2]; exact ha2
  rw [newTimer_free cb i p _ hfree, newTimer_free cb i p zeroTable rfl]
  exact ⟨rfl, rfl⟩

/-- C6: for every table and index `i < 15` whose slot is inactive or has
`tickDuration == 0`, `Stm0_StartTimer(i)` and `Stm0_StopTimer(i)` both return the
table unchanged; a slot created with period `0` is not running after
`Stm0_StartTimer(i)`. -/
theorem start_stop_noop_without_period (g : Table) (i : Fin STM0_MAX_TIMERS) :
    ((g i).active = false ∨ (g i).tickDuration = 0 →
      Stm0_StartTimer i g = g ∧ Stm0_StopTimer i g = g) ∧
    ((g i).active = false → ∀ cb : Callback,
      (Stm0_NewTimer cb i 0 g i).tickDuration = 0 ∧
      Stm0_StartTimer i (Stm0_NewTimer cb i 0 g) = Stm0_NewTimer cb i 0 g ∧
      (Stm0_StartTimer i (Stm0_NewTimer cb i 0 g) i).running = false) := by
  refine ⟨fun h => ⟨startTimer_noop i g h, stopTimer_noop i g h⟩, ?_⟩
  intro hfree cb
  have hnew := newTimer_free cb i 0 g hfree
  have hnoop := startTimer_noop i (Stm0_NewTimer cb i 0 g) (Or.inr (by rw [hnew]))
  refine ⟨by rw [hnew], hnoop, ?_⟩
  rw [hnoop, hnew]

/-- C6, on a timer registered in slot `4` with period `0`: starting and stopping
it change nothing, and it stays stopped. -/
theorem start_stop_noop_without_period_witness :
    (Stm0_StartTimer 4 (Stm0_NewTimer 8 4 0 zeroTable) = Stm0_NewTimer 8 4 0 zeroTable ∧
      Stm0_StopTimer 4 (Stm0_NewTimer 8 4 0 zeroTable) = Stm0_NewTimer 8 4 0 zeroTable) ∧
    (Stm0_StartTimer 4 (Stm0_NewTimer 8 4 0 zeroTable) 4).running = false :=
  ⟨(start_stop_noop_without_period (Stm0_NewTimer 8 4 0 zeroTable) 4).1 (Or.inr (by decide)),
    ((start_stop_noop_without_period zeroTable 4).2 (by decide) 8).2.2⟩

/-- C7: with `IfxStm_increaseCompare` adding `g_Stm0TickTime` to the compare
value, for every initial deadline `d0`, tick time `t` and `N`, the compare value
after `N` invocations of `isrStm0_TickHandler` is `d0 + N * t`, and the value
programmed by the next invocation is `d0 + (N + 1) * t`, whatever the table holds
and whatever the callbacks do to the table. -/
theorem comparator_after_ticks (env : Env) (g : Table) (d0 t N : Nat) :
    (run env N ⟨d0, t, g⟩).comparator = d0 + N * t ∧
    (pass env N ⟨d0, t, g⟩).head? = some (Event.rearm (d0 + (N + 1) * t)) := by
  have h : ∀ n, (run env n ⟨d0, t, g⟩).comparator = d0 + n * t ∧
      (run env n ⟨d0, t, g⟩).tickTime = t := by
    intro n
    induction n with
    | zero => simp [run]
    | succ n ih =>
      simp only [run, isrStm0_TickHandler, IfxStm_increaseCompare, ih.1, ih.2]
      exact ⟨by ring, trivial⟩
  refine ⟨(h N).1, ?_⟩
  simp only [pass, isrStm0_TickHandler, IfxStm_increaseCompare, (h N).1, (h N).2,
    List.head?_cons]
  congr 2
  ring

/-- C4, as stated, fails: timer `1` is running with period `1`; it is stopped, and
on the next tick the callback of timer `0` calls `Stm0_StartTimer(1)`, after which
the loop reaches slot `1` and calls its callback. -/
theorem stop_silences_counterexample :
    ((twoTimers 1).active = true ∧ (twoTimers 1).running = true ∧
      (twoTimers 1).tickDuration = 1 ∧ (twoTimers 1).tickCount = 0 ∧
      (twoTimers 1).callback = 2) ∧
    callsFrom 1 (pass restartEnv 0 ⟨0, 1, Stm0_StopTimer 1 twoTimers⟩) = [2] := by
  decide

/-- C4, amended: for a slot `i` that is active and running with period
`1 ≤ p < 2^32`, callback `cb` and any elapsed count `e`, if the callbacks called
from other slots do not modify slot `i`, then after `Stm0_StopTimer(i)` no number
of invocations of `isrStm0_TickHandler` calls from slot `i`, and after a following
`Stm0_StartTimer(i)` the first `p - 1` invocations make no call from slot `i` and
the `p`-th calls `cb` once, whatever `e` was. -/
theorem stop_silences_start_restarts (env : Env) (g : Table) (i : Fin STM0_MAX_TIMERS)
    (p e : Nat) (cb : Callback) (cmp t n : Nat)
    (hslot : g i =
      { tickCount := e, tickDuration := p, callback := cb, running := true, active := true })
    (hp1 : 1 ≤ p) (hp32 : p < UINT32_MOD)
    (hstop : ∀ k, k < n → OthersKeep env i (pass env k ⟨cmp, t, Stm0_StopTimer i g⟩))
    (hstart : ∀ k, k < p → OthersKeep env i
      (pass env k ((run env n ⟨cmp, t, Stm0_StopTimer i g⟩).call (Stm0_StartTimer i)))) :
    (∀ k, k < n → callsFrom i (pass env k ⟨cmp, t, Stm0_StopTimer i g⟩) = []) ∧
    (∀ k, k < p - 1 → callsFrom i
      (pass env k ((run env n ⟨cmp, t, Stm0_StopTimer i g⟩).call (Stm0_StartTimer i))) = []) ∧
    callsFrom i
      (pass env (p - 1) ((run env n ⟨cmp, t, Stm0_StopTimer i g⟩).call (Stm0_StartTimer i)))
      = [cb] := by
  have hstopped : Stm0_StopTimer i g i =
      { tickCount := 0, tickDuration := p, callback := cb, running := false, active := true } := by
    rw [stopTimer_effective i g (by rw [hslot]) (by rw [hslot]; exact hp1), hslot]
  obtain ⟨hkeep, hsilent⟩ := run_idle env i ⟨cmp, t, Stm0_StopTimer i g⟩
    (Or.inr (by show (Stm0_StopTimer i g i).running = false; rw [hstopped])) n hstop
  have hidle : (run env n ⟨cmp, t, Stm0_StopTimer i g⟩).timers i =
      { tickCount := 0, tickDuration := p, callback := cb, running := false, active := true } :=
    hkeep.trans hstopped
  have hstarted : ((run env n ⟨cmp, t, Stm0_StopTimer i g⟩).call (Stm0_StartTimer i)).timers i =
      { tickCount := 0, tickDuration := p, callback := cb, running := true, active := true } := by
    show Stm0_StartTimer i _ i = _
    rw [startTimer_effective i _ (by rw [hidle]) (by rw [hidle]; exact hp1), hidle]
  have hfire := fires_at_period env i _ p cb hp1 hp32 hstarted hstart
  exact ⟨hsilent, hfire.1, hfire.2.1⟩

/-- C4 amended, on the two started timers with inert callbacks: timer `1` is
stopped for three ticks and started again; it fires on the first tick after. -/
theorem stop_silences_start_restarts_witness :
    (∀ k, k < 3 → callsFrom 1 (pass inertEnv k ⟨0, 1, Stm0_StopTimer 1 twoTimers⟩) = []) ∧
    (∀ k, k < 1 - 1 → callsFrom 1
      (pass inertEnv k
        ((run inertEnv 3 ⟨0, 1, Stm0_StopTimer 1 twoTimers⟩).call (Stm0_StartTimer 1))) = []) ∧
    callsFrom 1
      (pass inertEnv (1 - 1)
        ((run inertEnv 3 ⟨0, 1, Stm0_StopTimer 1 twoTimers⟩).call (Stm0_StartTimer 1)))
      = [2] :=
  stop_silences_start_restarts inertEnv twoTimers 1 1 0 2 0 1 3 (by decide) (by decide)
    (by decide) (fun _ _ _ _ _ _ _ => rfl) (fun _ _ _ _ _ _ _ => rfl)

/-- C8: with callbacks that act on the table through lifecycle calls only, every
table reachable from the zero table by `Stm0_NewTimer`, `Stm0_DeleteTimer`,
`Stm0_StartTimer`, `Stm0_StopTimer` and `isrStm0_TickHandler` steps has
`running → active` in every slot, and each of the five operations keeps this
predicate from any table that has it. -/
theorem running_implies_active_invariant (env : Env) (hapi : ApiOnly env) :
    (∀ g : Table, Reachable env g → RunningImpliesActive g) ∧
    (∀ g : Table, RunningImpliesActive g →
      (∀ (cb : Callback) (i : Fin STM0_MAX_TIMERS) (p : Nat),
        RunningImpliesActive (Stm0_NewTimer cb i p g)) ∧
      (∀ i : Fin STM0_MAX_TIMERS, RunningImpliesActive (Stm0_DeleteTimer i g)) ∧
      (∀ i : Fin STM0_MAX_TIMERS, RunningImpliesActive (Stm0_StartTimer i g)) ∧
      (∀ i : Fin STM0_MAX_TIMERS, RunningImpliesActive (Stm0_StopTimer i g)) ∧
      (∀ cmp t : Nat, RunningImpliesActive (isrStm0_TickHandler env ⟨cmp, t, g⟩).1.timers)) := by
  refine ⟨?_, ?_⟩
  · intro g hg
    induction hg with
    | init => intro j hr; exact absurd hr (by simp [zeroTable, zeroTimer])
    | op o g _ ih => exact op_invariant o g ih
    | tick cmp t g _ ih => exact handler_invariant env hapi ⟨cmp, t, g⟩ ih
  · intro g h
    exact ⟨fun cb i p => newTimer_invariant cb i p g h,
      fun i => deleteTimer_invariant i g h,
      fun i => startTimer_invariant i g h,
      fun i => stopTimer_invariant i g h,
      fun cmp t => handler_invariant env hapi ⟨cmp, t, g⟩ h⟩

/-- C8, on the two started timers after one tick with inert callbacks. -/
theorem running_implies_active_invariant_witness :
    RunningImpliesActive (isrStm0_TickHandler inertEnv ⟨0, 1, twoTimers⟩).1.timers :=
  (running_implies_active_invariant inertEnv (fun _ => ⟨[], fun _ => rfl⟩)).1 _
    (Reachable.tick 0 1 twoTimers
      (Reachable.op (Op.startTimer 1) _
        (Reachable.op (Op.newTimer 2 1 1) _
          (Reachable.op (Op.startTimer 0) _
            (Reachable.op (Op.newTimer 1 0 1) _ Reachable.init)))))

/-- C9, as stated, fails twice. With the counter at the largest 32-bit value the
increment wraps to `0`, which is below the period `5`: no call is made. And a slot
that is past its period is not called when the callback of an earlier slot stops
it in the same pass. -/
theorem overdue_fires_once_counterexample :
    ((wrapTable 0).active = true ∧ (wrapTable 0).running = true ∧
      (wrapTable 0).tickCount ≥ (wrapTable 0).tickDuration ∧
      (wrapTable 0).tickCount < UINT32_MOD ∧
      callsFrom 0 (isrStm0_TickHandler inertEnv ⟨0, 1, wrapTable⟩).2 = []) ∧
    ((overdueTable 1).active = true ∧ (overdueTable 1).running = true ∧
      (overdueTable 1).tickCount ≥ (overdueTable 1).tickDuration ∧
      callsFrom 1 (isrStm0_TickHandler stopEnv ⟨0, 1, overdueTable⟩).2 = []) := by
  decide

/-- C9, amended: for a slot `i` that is active and running with
`tickCount ≥ tickDuration` and `tickCount` below the largest 32-bit value, if the
callbacks called from other slots do not modify slot `i`, one invocation of
`isrStm0_TickHandler` calls the callback of slot `i` exactly once and leaves its
`tickCount` at `0`; and for every table and all callbacks, one invocation calls
from each slot at most once. -/
theorem overdue_fires_once (env : Env) (s : Machine) (i : Fin STM0_MAX_TIMERS) :
    ((s.timers i).active = true → (s.timers i).running = true →
      (s.timers i).tickCount ≥ (s.timers i).tickDuration →
      (s.timers i).tickCount + 1 < UINT32_MOD →
      OthersKeep env i (isrStm0_TickHandler env s).2 →
      callsFrom i (isrStm0_TickHandler env s).2 = [(s.timers i).callback] ∧
      ((isrStm0_TickHandler env s).1.timers i).tickCount = 0) ∧
    (∀ j : Fin STM0_MAX_TIMERS, (callsFrom j (isrStm0_TickHandler env s).2).length ≤ 1) := by
  refine ⟨?_, ?_⟩
  · intro ha hr hge hlt hk
    have hmod : ((s.timers i).tickCount + 1) % UINT32_MOD = (s.timers i).tickCount + 1 :=
      Nat.mod_eq_of_lt hlt
    have hfire := handler_fire env i s hk ha hr (by rw [hmod]; exact Nat.le_succ_of_le hge)
    exact ⟨hfire.2.1, hfire.1⟩
  · intro j
    simp only [isrStm0_TickHandler, callsFrom_rearm]
    exact callsFrom_tickLoop_length env j _ s.timers (List.nodup_finRange STM0_MAX_TIMERS)

/-- C9 amended, on the table whose slot `1` is past its period, with inert
callbacks: its callback is called once and its counter is reset. -/
theorem overdue_fires_once_witness :
    callsFrom 1 (isrStm0_TickHandler inertEnv ⟨0, 1, overdueTable⟩).2 = [2] ∧
    ((isrStm0_TickHandler inertEnv ⟨0, 1, overdueTable⟩).1.timers 1).tickCount = 0 :=
  (overdue_fires_once inertEnv ⟨0, 1, overdueTable⟩ 1).1 (by decide) (by decide) (by decide)
    (by decide) (fun _ _ _ _ _ => rfl)

/-- C10, as stated, fails: slot `0` of the table is active and running and has
`tickCount + 1 ≥ tickDuration` in the natural numbers, but its counter is at the
largest 32-bit value, the increment wraps to `0`, and the handler makes no call. -/
theorem calls_are_due_slots_counterexample :
    Inert inertEnv ∧
    (List.finRange STM0_MAX_TIMERS).filter (fun i => dueNat wrapTable i) = [0] ∧
    calls (isrStm0_TickHandler inertEnv ⟨0, 1, wrapTable⟩).2 = [] ∧
    calls (isrStm0_TickHandler inertEnv ⟨0, 1, wrapTable⟩).2 ≠
      ((List.finRange STM0_MAX_TIMERS).filter (fun i => dueNat wrapTable i)).map
        (fun i => (i, (wrapTable i).callback)) := by
  refine ⟨fun _ _ => rfl, ?_, ?_, ?_⟩ <;> decide

/-- C10, amended: for every table, if callbacks do not modify the table, the calls
made by one invocation of `isrStm0_TickHandler` are the callbacks of the slots that
are active, running and have `(tickCount + 1) mod 2^32 ≥ tickDuration`, in strictly
ascending order of slot index. -/
theorem calls_are_due_slots_ascending (env : Env) (henv : Inert env) (s : Machine) :
    calls (isrStm0_TickHandler env s).2 =
      ((List.finRange STM0_MAX_TIMERS).filter (fun i => due s.timers i)).map
        (fun i => (i, (s.timers i).callback)) ∧
    ((calls (isrStm0_TickHandler env s).2).map Prod.fst).Pairwise (fun a b => a < b) := by
  have h : calls (isrStm0_TickHandler env s).2 =
      ((List.finRange STM0_MAX_TIMERS).filter (fun i => due s.timers i)).map
        (fun i => (i, (s.timers i).callback)) :=
    (tickLoop_inert env henv _ s.timers (List.nodup_finRange STM0_MAX_TIMERS)).2
  refine ⟨h, ?_⟩
  rw [h, List.map_map]
  have hid : (Prod.fst ∘ fun i : Fin STM0_MAX_TIMERS => (i, (s.timers i).callback)) = id := rfl
  rw [hid, List.map_id]
  exact (List.pairwise_lt_finRange STM0_MAX_TIMERS).filter _

/-- C10 amended, on the two started timers with inert callbacks: both are due on
the first tick and are called in the order `0`, `1`. -/
theorem calls_are_due_slots_ascending_witness :
    calls (isrStm0_TickHandler inertEnv ⟨0, 1, twoTimers⟩).2 =
      ((List.finRange STM0_MAX_TIMERS).filter (fun i => due twoTimers i)).map
        (fun i => (i, (twoTimers i).callback)) ∧
    ((calls (isrStm0_TickHandler inertEnv ⟨0, 1, twoTimers⟩).2).map Prod.fst).Pairwise
      (fun a b => a < b) :=
  calls_are_due_slots_ascending inertEnv (fun _ _ => rfl) ⟨0, 1, twoTimers⟩

/-- C13: for every table, if callbacks do not modify the table,
`isrStm0_TickHandler` leaves the active flag, the running flag, `tickDuration` and
the callback of every slot unchanged, leaves every slot that is inactive or not
running entirely unchanged, and so changes only the `tickCount` of slots that are
both active and running. -/
theorem handler_changes_only_counters (env : Env) (henv : Inert env) (s : Machine)
    (j : Fin STM0_MAX_TIMERS) :
    ((isrStm0_TickHandler env s).1.timers j).active = (s.timers j).active ∧
    ((isrStm0_TickHandler env s).1.timers j).running = (s.timers j).running ∧
    ((isrStm0_TickHandler env s).1.timers j).tickDuration = (s.timers j).tickDuration ∧
    ((isrStm0_TickHandler env s).1.timers j).callback = (s.timers j).callback ∧
    ((s.timers j).active = false ∨ (s.timers j).running = false →
      (isrStm0_TickHandler env s).1.timers j = s.timers j) ∧
    (isrStm0_TickHandler env s).1.timers j =
      { s.timers j with tickCount := ((isrStm0_TickHandler env s).1.timers j).tickCount } := by
  have hkeep : ∀ c, Keeps env j c := fun c g => by rw [henv c g]
  have hk : OthersKeep env j (isrStm0_TickHandler env s).2 := fun _ c _ _ => hkeep c
  by_cases ha : (s.timers j).active = true
  · by_cases hr : (s.timers j).running = true
    · by_cases hlt : ((s.timers j).tickCount + 1) % UINT32_MOD < (s.timers j).tickDuration
      · have h := (handler_count env j s hk ha hr hlt).1
        rw [h]
        exact ⟨rfl, rfl, rfl, rfl, fun hc => by simp [ha, hr] at hc, rfl⟩
      · have h := (handler_fire env j s hk ha hr (Nat.le_of_not_lt hlt)).2.2 (hkeep _)
        rw [h]
        exact ⟨rfl, rfl, rfl, rfl, fun hc => by simp [ha, hr] at hc, rfl⟩
    · have h := (handler_idle env j s hk (Or.inr (by simpa using hr))).1
      rw [h]
      exact ⟨rfl, rfl, rfl, rfl, fun _ => rfl, rfl⟩
  · have h := (handler_idle env j s hk (Or.inl (by simpa using ha))).1
    rw [h]
    exact ⟨rfl, rfl, rfl, rfl, fun _ => rfl, rfl⟩

/-- C13, on the two started timers with inert callbacks, for the free slot `5`. -/
theorem handler_changes_only_counters_witness :
    (isrStm0_TickHandler inertEnv ⟨0, 1, twoTimers⟩).1.timers 5 = twoTimers 5 :=
  (handler_changes_only_counters inertEnv (fun _ _ => rfl) ⟨0, 1, twoTimers⟩ 5).2.2.2.2.1
    (Or.inl (by decide))

/-- C14: for every table and all callbacks, one invocation of
`isrStm0_TickHandler` re-arms the comparator exactly once, unconditionally and
first: its effects are the re-arm with `comparator + g_Stm0TickTime`, followed by
slot updates and callback calls among which there is no re-arm; the comparator
then holds that value. -/
theorem handler_rearms_once_first (env : Env) (s : Machine) :
    ∃ rest : List Event,
      (isrStm0_TickHandler env s).2 = Event.rearm (s.comparator + s.tickTime) :: rest ∧
      (∀ v : Nat, Event.rearm v ∉ rest) ∧
      (isrStm0_TickHandler env s).1.comparator = s.comparator + s.tickTime :=
  ⟨(tickLoop env (List.finRange STM0_MAX_TIMERS) s.timers).2, rfl,
    fun v => rearm_not_mem_tickLoop env v _ s.timers, rfl⟩

/-- C16: for every table, index `i < 15` and `j ≠ i`, each of
`Stm0_NewTimer(cb, i, p)`, `Stm0_DeleteTimer(i)`, `Stm0_StartTimer(i)` and
`Stm0_StopTimer(i)` leaves slot `j`, all five fields, unchanged. -/
theorem lifecycle_calls_leave_other_slots (g : Table) (i j : Fin STM0_MAX_TIMERS)
    (h : j ≠ i) (cb : Callback) (p : Nat) :
    Stm0_NewTimer cb i p g j = g j ∧ Stm0_DeleteTimer i g j = g j ∧
    Stm0_StartTimer i g j = g j ∧ Stm0_StopTimer i g j = g j :=
  ⟨newTimer_other cb h p g, deleteTimer_other h g, startTimer_other h g, stopTimer_other h g⟩

/-- C16, on the two started timers: calls on slot `0` leave slot `1` alone. -/
theorem lifecycle_calls_leave_other_slots_witness :
    Stm0_NewTimer 9 0 3 twoTimers 1 = twoTimers 1 ∧ Stm0_DeleteTimer 0 twoTimers 1 = twoTimers 1 ∧
    Stm0_StartTimer 0 twoTimers 1 = twoTimers 1 ∧ Stm0_StopTimer 0 twoTimers 1 = twoTimers 1 :=
  lifecycle_calls_leave_other_slots twoTimers 0 1 (by decide) 9 3

/-- C17: for every table and index `i < 15`, `Stm0_DeleteTimer(i)` on an active
slot leaves it with `tickCount` `0`, `tickDuration` `0`, callback `NULL`, inactive
and not running; on an inactive slot it returns the table unchanged; applied twice
it equals itself applied once; and the deleted index accepts a following
`Stm0_NewTimer`. -/
theorem deleteTimer_clears_slot (g : Table) (i : Fin STM0_MAX_TIMERS) :
    ((g i).active = true → Stm0_DeleteTimer i g i =
      { tickCount := 0, tickDuration := 0, callback := NULL, running := false,
        active := false }) ∧
    ((g i).active = false → Stm0_DeleteTimer i g = g) ∧
    Stm0_DeleteTimer i (Stm0_DeleteTimer i g) = Stm0_DeleteTimer i g ∧
    (∀ (cb : Callback) (p : Nat), Stm0_NewTimer cb i p (Stm0_DeleteTimer i g) i =
      { tickCount := 0, tickDuration := p, callback := cb, running := false,
        active := true }) := by
  have hfree : (Stm0_DeleteTimer i g i).active = false := by
    by_cases ha : (g i).active = true
    · rw [deleteTimer_active i g ha]; rfl
    · have ha2 : (g i).active = false := by simpa using ha
      rw [deleteTimer_free i g ha2]; exact ha2
  exact ⟨fun ha => deleteTimer_active i g ha, fun ha => deleteTimer_free i g ha,
    deleteTimer_free i _ hfree, fun cb p => newTimer_free cb i p _ hfree⟩

/-- C17, on the two started timers: deleting timer `1` clears its slot. -/
theorem deleteTimer_clears_slot_witness :
    Stm0_DeleteTimer 1 twoTimers 1 =
      { tickCount := 0, tickDuration := 0, callback := NULL, running := false,
        active := false } :=
  (deleteTimer_clears_slot twoTimers 1).1 (by decide)

/-- C20: for every table and index `i < 15`, `Stm0_StartTimer` and
`Stm0_StopTimer` are idempotent and the later call wins: start after start is
start, stop after stop is stop, start after stop is start, stop after start is
stop; and `Stm0_StartTimer` on a slot that is active with a period of at least one
tick, running or not, sets its `tickCount` to `0`. -/
theorem start_stop_last_call_wins (g : Table) (i : Fin STM0_MAX_TIMERS) :
    Stm0_StartTimer i (Stm0_StartTimer i g) = Stm0_StartTimer i g ∧
    Stm0_StopTimer i (Stm0_StopTimer i g) = Stm0_StopTimer i g ∧
    Stm0_StartTimer i (Stm0_StopTimer i g) = Stm0_StartTimer i g ∧
    Stm0_StopTimer i (Stm0_StartTimer i g) = Stm0_StopTimer i g ∧
    ((g i).active = true → 0 < (g i).tickDuration →
      Stm0_StartTimer i g i = { g i with tickCount := 0, running := true }) :=
  ⟨startTimer_startTimer i g, stopTimer_stopTimer i g, startTimer_stopTimer i g,
    stopTimer_startTimer i g, fun ha hd => startTimer_effective i g ha hd⟩

/-- C20, on the table whose running slot `1` has counted to `3`: starting it again
puts the counter back to `0`. -/
theorem start_stop_last_call_wins_witness :
    (overdueTable 1).running = true ∧ (overdueTable 1).tickCount = 3 ∧
    (Stm0_StartTimer 1 overdueTable 1).tickCount = 0 :=
  ⟨by decide, by decide,
    by rw [(start_stop_last_call_wins overdueTable 1).2.2.2.2 (by decide) (by decide)]⟩

/-- C12: a slot created with period `0` never fires. From the zero table, for
every index `i < 15` and every sequence of lifecycle calls and ticks in which every
registration of slot `i`, by the sequence or by a callback, has period `0`, no
invocation of `isrStm0_TickHandler` makes a call from slot `i`, whatever
`Stm0_StartTimer` and `Stm0_StopTimer` calls are interleaved; and in every
reachable table a running slot has `tickDuration ≥ 1`. -/
theorem zero_period_slot_never_fires (env : Env) (i : Fin STM0_MAX_TIMERS) :
    (ApiOnlyWith (Op.zeroPeriodAt i) env →
      ∀ (steps : List Step) (cmp t : Nat),
        (∀ o, o ∈ stepOps steps → Op.zeroPeriodAt i o) →
        callsFrom i (exec env steps ⟨cmp, t, zeroTable⟩).2 = []) ∧
    (ApiOnly env → ∀ g : Table, Reachable env g → RunningHasPeriod g) := by
  refine ⟨?_, ?_⟩
  · intro hapi steps cmp t hq
    have hcb : ∀ (c : Callback) (g : Table), ZeroPeriodSlot i g → ZeroPeriodSlot i (env c g) :=
      callback_preserves (ZeroPeriodSlot i) (Op.zeroPeriodAt i) env hapi (op_zeroPeriodSlot i)
    have hslot : ∀ (j : Fin STM0_MAX_TIMERS) (g : Table), ZeroPeriodSlot i g →
        ZeroPeriodSlot i (tickSlot env j g).1 ∧
          ∀ e, e ∈ (tickSlot env j g).2 → ∀ c : Callback, e ≠ Event.call i c := by
      intro j g hg
      refine ⟨tickSlot_preserves env (ZeroPeriodSlot i)
        (fun k v g2 h2 => setTickCount_zeroPeriodSlot i k v g2 h2) hcb j g hg, ?_⟩
      intro e he c hec
      rcases mem_tickSlot_events env j g e he with h0 | h0 | ⟨h0, _, hr⟩
      · rw [h0] at hec; exact Event.noConfusion hec
      · rw [h0] at hec; exact Event.noConfusion hec
      · rw [h0] at hec
        injection hec with hji _
        rw [hji, hg.2] at hr
        exact Bool.noConfusion hr
    have h := exec_preserves env (ZeroPeriodSlot i) (Op.zeroPeriodAt i)
      (fun e => ∀ c : Callback, e ≠ Event.call i c) (op_zeroPeriodSlot i)
      (fun s hs => handler_preserves env _ _ hslot (fun v c hc => Event.noConfusion hc) s hs)
      steps ⟨cmp, t, zeroTable⟩ hq ⟨rfl, rfl⟩
    exact callsFrom_eq_nil i _ h.2
  · intro hapi g hg
    have hapi2 : ApiOnlyWith (fun _ => True) env := by
      intro c
      obtain ⟨ops, hops⟩ := hapi c
      exact ⟨ops, fun _ _ => trivial, hops⟩
    have hcb : ∀ (c : Callback) (g : Table), RunningHasPeriod g → RunningHasPeriod (env c g) :=
      callback_preserves RunningHasPeriod (fun _ => True) env hapi2
        (fun o g _ h => op_runningHasPeriod o g h)
    induction hg with
    | init => intro j hr; simp [zeroTable, zeroTimer] at hr
    | op o g _ ih => exact op_runningHasPeriod o g ih
    | tick cmp t g _ ih =>
      exact (handler_preserves env RunningHasPeriod (fun _ => True)
        (fun j g2 h2 => ⟨tickSlot_preserves env RunningHasPeriod
          setTickCount_runningHasPeriod hcb j g2 h2, fun _ _ => trivial⟩)
        (fun _ => trivial) ⟨cmp, t, g⟩ ih).1

/-- C12, with inert callbacks: slot `4` is registered with period `0`, started,
ticked, stopped, started and ticked again; no call is made from it. -/
theorem zero_period_slot_never_fires_witness :
    callsFrom 4 (exec inertEnv
      [Step.op (Op.newTimer 8 4 0), Step.op (Op.startTimer 4), Step.tick,
        Step.op (Op.stopTimer 4), Step.op (Op.startTimer 4), Step.tick]
      ⟨0, 1, zeroTable⟩).2 = [] :=
  (zero_period_slot_never_fires inertEnv 4).1
    (fun _ => ⟨[], fun _ h => by simp at h, fun _ => rfl⟩) _ 0 1
    (by
      intro o ho
      simp only [stepOps, List.mem_cons, List.mem_singleton] at ho
      rcases ho with h | h | h | h | h
      · rw [h]; exact fun _ => rfl
      · rw [h]; trivial
      · rw [h]; trivial
      · rw [h]; trivial
      · simp at h)

/-- C18: in every table reached from the zero table by lifecycle calls with
`uint32_t` periods and handler invocations, callbacks not modifying the table,
observed between operations, every running slot has `tickCount < tickDuration` and
every slot that is not running has `tickCount = 0`; so the increment `tickCount++`
of a running slot does not wrap around: `tickCount + 1 < 2^32`. -/
theorem counters_stay_in_range (env : Env) (henv : Inert env) (steps : List Step)
    (cmp t : Nat) (hq : ∀ o, o ∈ stepOps steps → Op.wellTyped o) (j : Fin STM0_MAX_TIMERS) :
    (((exec env steps ⟨cmp, t, zeroTable⟩).1.timers j).running = true →
      ((exec env steps ⟨cmp, t, zeroTable⟩).1.timers j).tickCount <
        ((exec env steps ⟨cmp, t, zeroTable⟩).1.timers j).tickDuration) ∧
    (((exec env steps ⟨cmp, t, zeroTable⟩).1.timers j).running = false →
      ((exec env steps ⟨cmp, t, zeroTable⟩).1.timers j).tickCount = 0) ∧
    (((exec env steps ⟨cmp, t, zeroTable⟩).1.timers j).running = true →
      ((exec env steps ⟨cmp, t, zeroTable⟩).1.timers j).tickCount + 1 < UINT32_MOD) := by
  have h := (exec_preserves env CountersInRange Op.wellTyped (fun _ => True)
    op_countersInRange
    (fun s hs => handler_preserves env CountersInRange (fun _ => True)
      (fun k g hg => ⟨tickSlot_countersInRange env henv k g hg, fun _ _ => trivial⟩)
      (fun _ => trivial) s hs)
    steps ⟨cmp, t, zeroTable⟩ hq zeroTable_countersInRange).1 j
  obtain ⟨hd32, hrun, hstop⟩ := h
  refine ⟨fun hr => (hrun hr).2, hstop, fun hr => ?_⟩
  have := (hrun hr).2
  omega

set_option maxRecDepth 100000 in
/-- C18, with inert callbacks: timer `3` of period `5` after three ticks has its
counter below its period. -/
theorem counters_stay_in_range_witness :
    ((exec inertEnv
        [Step.op (Op.newTimer 42 3 5), Step.op (Op.startTimer 3), Step.tick, Step.tick, Step.tick]
        ⟨0, 1, zeroTable⟩).1.timers 3).tickCount <
      ((exec inertEnv
        [Step.op (Op.newTimer 42 3 5), Step.op (Op.startTimer 3), Step.tick, Step.tick, Step.tick]
        ⟨0, 1, zeroTable⟩).1.timers 3).tickDuration :=
  (counters_stay_in_range inertEnv (fun _ _ => rfl)
    [Step.op (Op.newTimer 42 3 5), Step.op (Op.startTimer 3), Step.tick, Step.tick, Step.tick]
    0 1
    (by
      intro o ho
      simp only [stepOps, List.mem_cons, List.mem_singleton] at ho
      rcases ho with h | h | h
      · rw [h]; show (5 : Nat) < UINT32_MOD; decide
      · rw [h]; trivial
      · simp at h)
    3).1 (by decide)

/-- C19: if every `Stm0_NewTimer` call of a sequence of operations from the zero
table, those made by callbacks included, passes a callback other than `NULL`, then
in the table reached every active slot holds a callback other than `NULL`, and no
invocation of `isrStm0_TickHandler` in the sequence calls a `NULL` pointer. -/
theorem handler_never_calls_null (env : Env) (hapi : ApiOnlyWith Op.nonNull env)
    (steps : List Step) (cmp t : Nat) (hq : ∀ o, o ∈ stepOps steps → Op.nonNull o) :
    ActiveNonNull (exec env steps ⟨cmp, t, zeroTable⟩).1.timers ∧
    ∀ k : Fin STM0_MAX_TIMERS, Event.call k NULL ∉ (exec env steps ⟨cmp, t, zeroTable⟩).2 := by
  have hcb : ∀ (c : Callback) (g : Table), ActiveNonNull g → ActiveNonNull (env c g) :=
    callback_preserves ActiveNonNull Op.nonNull env hapi op_activeNonNull
  have hslot : ∀ (j : Fin STM0_MAX_TIMERS) (g : Table), ActiveNonNull g →
      ActiveNonNull (tickSlot env j g).1 ∧
        ∀ e, e ∈ (tickSlot env j g).2 → ∀ k : Fin STM0_MAX_TIMERS, e ≠ Event.call k NULL := by
    intro j g hg
    refine ⟨tickSlot_preserves env ActiveNonNull setTickCount_activeNonNull hcb j g hg, ?_⟩
    intro e he k hek
    rcases mem_tickSlot_events env j g e he with h0 | h0 | ⟨h0, ha, _⟩
    · rw [h0] at hek; exact Event.noConfusion hek
    · rw [h0] at hek; exact Event.noConfusion hek
    · rw [h0] at hek
      injection hek with _ hc
      exact hg j ha hc
  have h := exec_preserves env ActiveNonNull Op.nonNull
    (fun e => ∀ k : Fin STM0_MAX_TIMERS, e ≠ Event.call k NULL) op_activeNonNull
    (fun s hs => handler_preserves env _ _ hslot (fun v k hc => Event.noConfusion hc) s hs)
    steps ⟨cmp, t, zeroTable⟩ hq (fun k ha => by simp [zeroTable, zeroTimer] at ha)
  exact ⟨h.1, fun k hk => h.2 _ hk k rfl⟩

/-- C19, with inert callbacks: timer `0` registered with callback `7`, period one
tick, started and ticked twice. -/
theorem handler_never_calls_null_witness :
    ActiveNonNull (exec inertEnv
      [Step.op (Op.newTimer 7 0 1), Step.op (Op.startTimer 0), Step.tick, Step.tick]
      ⟨0, 1, zeroTable⟩).1.timers ∧
    Event.call 0 NULL ∉ (exec inertEnv
      [Step.op (Op.newTimer 7 0 1), Step.op (Op.startTimer 0), Step.tick, Step.tick]
      ⟨0, 1, zeroTable⟩).2 :=
  have h := handler_never_calls_null inertEnv
    (fun _ => ⟨[], fun _ h => by simp at h, fun _ => rfl⟩)
    [Step.op (Op.newTimer 7 0 1), Step.op (Op.startTimer 0), Step.tick, Step.tick] 0 1
    (by
      intro o ho
      simp only [stepOps, List.mem_cons, List.mem_singleton] at ho
      rcases ho with h | h | h
      · rw [h]; show (7 : Nat) ≠ NULL; decide
      · rw [h]; trivial
      · simp at h)
  ⟨h.1, h.2 0⟩

/-- C11: the writes of `Stm0_DeleteTimer` in source order, with one invocation of
`isrStm0_TickHandler` between two of them. Timer `0` is registered with callback
`7` and period `5` and started. A tick after the third write (`callback = NULL`)
finds the slot still active and running and calls the `NULL` pointer; a tick after
the second write (`tickDuration = 0`) calls callback `7` on the first tick after
the start, four ticks early. The writes do make up the functions; a tick between
the writes of `Stm0_NewTimer` on a free slot makes no call from it. -/
theorem deleteTimer_interrupted_calls_null :
    (∀ (i : Fin STM0_MAX_TIMERS) (g : Table),
      applyWrites (Stm0_DeleteTimer_writes i g) g = Stm0_DeleteTimer i g) ∧
    (oneTimer 0 =
      { tickCount := 0, tickDuration := 5, callback := 7, running := true, active := true }) ∧
    callsFrom 0 (interrupted inertEnv (Stm0_DeleteTimer_writes 0 oneTimer) 3
      ⟨0, 1, oneTimer⟩).2 = [NULL] ∧
    callsFrom 0 (interrupted inertEnv (Stm0_DeleteTimer_writes 0 oneTimer) 2
      ⟨0, 1, oneTimer⟩).2 = [7] ∧
    callsFrom 3 (interrupted inertEnv (Stm0_NewTimer_writes 9 3 1 oneTimer) 4
      ⟨0, 1, oneTimer⟩).2 = [] := by
  refine ⟨deleteTimer_writes, ?_, ?_, ?_, ?_⟩ <;> decide

/-- C15, as stated, fails when a third callback takes part. Timers `0`, `1`, `2`
have period one tick. (1) Slot `0` fires and its callback stops the due slot `2`,
the callback of slot `1` starts it again, and slot `2` is called in that pass.
(2) Slot `0` fires and its callback starts the stopped slot `2`, the callback of
slot `1` stops it again, and slot `2` is not called. (3) On a running slot of
period `0`, `Stm0_StopTimer` has no effect, and the slot is called. -/
theorem live_iteration_counterexample :
    (Event.call 0 1 ∈ (isrStm0_TickHandler stopStartEnv ⟨0, 1, threeTimers⟩).2 ∧
      (∀ g : Table, stopStartEnv 1 g = Stm0_StopTimer 2 g) ∧
      due threeTimers 2 = true ∧
      callsFrom 2 (isrStm0_TickHandler stopStartEnv ⟨0, 1, threeTimers⟩).2 = [3]) ∧
    (Event.call 0 1 ∈
        (isrStm0_TickHandler startStopEnv ⟨0, 1, Stm0_StopTimer 2 threeTimers⟩).2 ∧
      (∀ g : Table, startStopEnv 1 g = Stm0_StartTimer 2 g) ∧
      (Stm0_StopTimer 2 threeTimers 2).active = true ∧
      (Stm0_StopTimer 2 threeTimers 2).running = false ∧
      (Stm0_StopTimer 2 threeTimers 2).tickDuration = 1 ∧
      callsFrom 2
        (isrStm0_TickHandler startStopEnv ⟨0, 1, Stm0_StopTimer 2 threeTimers⟩).2 = []) ∧
    (Event.call 0 1 ∈ (isrStm0_TickHandler stopStartEnv ⟨0, 1, zeroPeriodRunning⟩).2 ∧
      due zeroPeriodRunning 2 = true ∧
      callsFrom 2 (isrStm0_TickHandler stopStartEnv ⟨0, 1, zeroPeriodRunning⟩).2 = [3]) := by
  refine ⟨⟨?_, fun _ => rfl, ?_, ?_⟩, ⟨?_, fun _ => rfl, ?_, ?_, ?_, ?_⟩, ⟨?_, ?_, ?_⟩⟩ <;>
    decide

/-- C15, amended: the handler iterates over the live table. For indices
`i < j < 15`, let slot `i` fire in a pass, and let the callbacks called in the pass
from the other slots below `j` leave slot `j` alone. If the callback of slot `i`
does to slot `j` what `Stm0_StopTimer(j)` does, slot `j` being due with a period of
at least one tick, or what `Stm0_DeleteTimer(j)` does, slot `j` being due, no call
is made from slot `j` in that pass. If it does what `Stm0_StartTimer(j)` does,
slot `j` being stopped with period `1`, the callback of slot `j` is called in that
pass. And whatever the callbacks of slot `i` and of the slots after it do, to slot
`i` or otherwise, the calls from slot `i` in the pass are the same. -/
theorem live_iteration (env : Env) (s : Machine) (i j : Fin STM0_MAX_TIMERS) (hij : i < j) :
    (∀ ci : Callback, Event.call i ci ∈ (isrStm0_TickHandler env s).2 →
      (∀ k c, Event.call k c ∈ (isrStm0_TickHandler env s).2 → k < j → k ≠ i →
        Keeps env j c) →
      ((∀ g : Table, (env ci g) j = Stm0_StopTimer j g j) → due s.timers j = true →
        1 ≤ (s.timers j).tickDuration →
        callsFrom j (isrStm0_TickHandler env s).2 = []) ∧
      ((∀ g : Table, (env ci g) j = Stm0_DeleteTimer j g j) → due s.timers j = true →
        callsFrom j (isrStm0_TickHandler env s).2 = []) ∧
      ((∀ g : Table, (env ci g) j = Stm0_StartTimer j g j) →
        (s.timers j).active = true → (s.timers j).running = false →
        (s.timers j).tickDuration = 1 →
        callsFrom j (isrStm0_TickHandler env s).2 = [(s.timers j).callback])) ∧
    (∀ env2 : Env,
      (∀ k c, k < i → Event.call k c ∈ (isrStm0_TickHandler env s).2 →
        ∀ t : Table, env2 c t = env c t) →
      callsFrom i (isrStm0_TickHandler env2 s).2 =
        callsFrom i (isrStm0_TickHandler env s).2) := by
  refine ⟨?_, fun env2 h => handler_calls_congr env env2 s i h⟩
  intro ci hcall hk
  obtain ⟨g1, gc, hg1, hgc, hcalls⟩ := handler_pair env s i j hij ci hcall hk
  refine ⟨?_, ?_, ?_⟩
  · intro hstop hdue hper
    obtain ⟨ha, _⟩ := due_true s.timers j hdue
    have hslot : gc j = { g1 j with tickCount := 0, running := false } := by
      rw [hgc, hstop, stopTimer_effective j g1 (by rw [hg1]; exact ha)
        (by rw [hg1]; exact hper)]
    rw [hcalls, tickSlot_idle env j gc (Or.inr (by rw [hslot]))]
    rfl
  · intro hdel hdue
    obtain ⟨ha, _⟩ := due_true s.timers j hdue
    have hslot : gc j = zeroTimer := by
      rw [hgc, hdel, deleteTimer_active j g1 (by rw [hg1]; exact ha)]
    rw [hcalls, tickSlot_idle env j gc (Or.inl (by rw [hslot]; rfl))]
    rfl
  · intro hstart ha hr hper
    have hslot : gc j = { g1 j with tickCount := 0, running := true } := by
      rw [hgc, hstart, startTimer_effective j g1 (by rw [hg1]; exact ha)
        (by rw [hg1, hper]; exact Nat.one_pos)]
    rw [hcalls, tickSlot_fire env j gc (by rw [hslot, hg1]; exact ha) (by rw [hslot])
      (by rw [hslot, hg1]; show (s.timers j).tickDuration ≤ (0 + 1) % UINT32_MOD
          rw [hper]; decide)]
    simp [callsFrom, hslot, hg1]

/-- C15 amended, on the two started timers: slot `0` fires, its callback stops
the due slot `1`, and no call is made from slot `1` in that pass. -/
theorem live_iteration_witness :
    callsFrom 1 (isrStm0_TickHandler stopEnv ⟨0, 1, twoTimers⟩).2 = [] :=
  ((live_iteration stopEnv ⟨0, 1, twoTimers⟩ 0 1 (by decide)).1 1 (by decide)
    (fun k _ _ h1 h2 => absurd (Fin.ext (Nat.lt_one_iff.mp h1)) h2)).1
    (fun _ => rfl) (by decide) (by decide)

end Stm0
